import Mathlib

/-
Verification development for the 3D-viewer repository.

Shallow embedding of:
  * src/features/model-viewer/config/fileFormats.ts   (format resolver)
  * src/features/model-viewer/lib/sceneService.ts     (placement, camera orbit / zoom)
  * src/features/model-viewer/lib/sceneManager.ts     (same algorithms, touch path)
  * the model-history service (ModelHistoryServiceImpl, dual-backend store)

JavaScript numbers are embedded exactly: as rationals where the code uses
only field operations and min/max (placement), and as real numbers where
it goes through square roots and trigonometry (camera); timestamps and
byte counts are naturals; byte buffers are lists of naturals.
The shared Constants module (CAMERA_CONSTANTS / MODEL_CONSTANTS /
TOUCH_CONSTANTS) is not part of the provided sources, so the clamp bounds,
target size and threshold appear as explicit parameters; the sibling
implementations in sceneManager.ts / sceneService.ts use the literal values
0.1, pi - 0.1, 2, 20, 3 and 0 for them.
-/

namespace Fmt

/-- `LoaderType` from fileFormats.ts. -/
inductive LoaderType where
  | gltf | obj | fbx | stl | ply | collada
deriving DecidableEq, Repr

/-- `readAs` field values from fileFormats.ts. -/
inductive ReadAs where
  | text | arrayBuffer
deriving DecidableEq, Repr

/-- `FileFormat` record from fileFormats.ts. -/
structure FileFormat where
  extension : String
  mimeType : String
  loader : LoaderType
  readAs : ReadAs
deriving DecidableEq, Repr

/-- The `FILE_FORMATS` record from fileFormats.ts, as a finite map keyed by
extension (key order preserved). -/
def FILE_FORMATS (ext : String) : Option FileFormat :=
  if ext = "obj" then some ⟨"obj", "text/plain", .obj, .text⟩
  else if ext = "fbx" then some ⟨"fbx", "application/octet-stream", .fbx, .arrayBuffer⟩
  else if ext = "stl" then some ⟨"stl", "application/octet-stream", .stl, .arrayBuffer⟩
  else if ext = "ply" then some ⟨"ply", "application/octet-stream", .ply, .arrayBuffer⟩
  else if ext = "dae" then some ⟨"dae", "model/vnd.collada+xml", .collada, .text⟩
  else if ext = "3ds" then some ⟨"3ds", "application/octet-stream", .obj, .arrayBuffer⟩
  else if ext = "gltf" then some ⟨"gltf", "model/gltf+json", .gltf, .arrayBuffer⟩
  else if ext = "glb" then some ⟨"glb", "model/gltf-binary", .gltf, .arrayBuffer⟩
  else if ext = "3mf" then some ⟨"3mf", "model/3mf", .stl, .arrayBuffer⟩
  else none

/-- JS `String.prototype.split` with the one-character separator `'.'`,
over the character list: splitting never yields an empty list, adjacent
separators yield empty segments. -/
def splitOnDot : List Char → List (List Char)
  | [] => [[]]
  | c :: cs =>
    match splitOnDot cs with
    | [] => [[]]
    | h :: t => if c = '.' then [] :: h :: t else (c :: h) :: t

/-- `filename.toLowerCase().split('.').pop()`: the lowercased final
dot-segment of a file name (`pop` takes the last element, and `split` never
returns an empty array; JS `toLowerCase` is modelled by ASCII
character lowering, which agrees with it on all the extensions involved). -/
def jsExt (filename : String) : String :=
  String.mk ((splitOnDot (filename.data.map Char.toLower)).getLastD [])

/-- The own property keys of `Object.prototype`, which a plain object
literal such as `FILE_FORMATS` inherits: the JS `in` operator and property
lookup both see them. -/
def protoKeys : List String :=
  ["constructor", "hasOwnProperty", "isPrototypeOf", "propertyIsEnumerable",
   "toLocaleString", "toString", "valueOf", "__defineGetter__",
   "__defineSetter__", "__lookupGetter__", "__lookupSetter__", "__proto__"]

/-- The result of a JS property lookup `FILE_FORMATS[ext]`: `undefined`
(key absent from the whole prototype chain), an own-key format descriptor,
or an inherited `Object.prototype` member — a truthy value that is not a
format descriptor. -/
inductive JSLookup where
  | undefined
  | format (f : FileFormat)
  | inherited (key : String)
deriving DecidableEq, Repr

/-- `FILE_FORMATS[ext]`: property lookup walks the prototype chain — the
nine own keys yield their descriptors, the inherited `Object.prototype`
members are returned as truthy non-descriptors, anything else is
`undefined`. -/
def FILE_FORMATS_lookup (ext : String) : JSLookup :=
  match FILE_FORMATS ext with
  | some f => .format f
  | none => if ext ∈ protoKeys then .inherited ext else .undefined

/-- `ext in FILE_FORMATS`: the JS `in` operator is true for own keys and
for inherited `Object.prototype` keys alike. -/
def jsIn (ext : String) : Bool :=
  (FILE_FORMATS ext).isSome || decide (ext ∈ protoKeys)

/-- `getFileExtension` from fileFormats.ts:
`ext && ext in FILE_FORMATS ? ext : null` (the empty string is falsy;
`in` also sees the inherited `Object.prototype` keys). -/
def getFileExtension (filename : String) : Option String :=
  let ext := jsExt filename
  if ext ≠ "" ∧ jsIn ext = true then some ext else none

/-- The format resolver: file name to the value of the `FILE_FORMATS`
lookup (`getFileExtension` composed with the property access, as in
`getFileFormat`'s `FILE_FORMATS[ext] || null`; every value reachable on
the chain here is truthy, so the `|| null` changes nothing). -/
def resolveFormat (filename : String) : JSLookup :=
  match getFileExtension filename with
  | none => .undefined
  | some e => FILE_FORMATS_lookup e

/-- Read-encoding vocabulary of the specification (binary / text). -/
inductive Encoding where
  | binary | text
deriving DecidableEq, Repr

/-- A `readAs` value denotes an encoding: `arrayBuffer` is binary reading. -/
def encOf : ReadAs → Encoding
  | .text => .text
  | .arrayBuffer => .binary

/-- Modelled from the spec: the loaderKind/read-encoding table of section 6
(obj→obj/text, fbx→fbx/binary, stl→stl/binary, ply→ply/binary,
dae→collada/text, 3ds→obj/binary, gltf→gltf/binary, glb→gltf/binary,
3mf→stl/binary; none otherwise), stated independently of the code. -/
def specResolve (ext : String) : Option (LoaderType × Encoding) :=
  if ext = "obj" then some (.obj, .text)
  else if ext = "fbx" then some (.fbx, .binary)
  else if ext = "stl" then some (.stl, .binary)
  else if ext = "ply" then some (.ply, .binary)
  else if ext = "dae" then some (.collada, .text)
  else if ext = "3ds" then some (.obj, .binary)
  else if ext = "gltf" then some (.gltf, .binary)
  else if ext = "glb" then some (.gltf, .binary)
  else if ext = "3mf" then some (.stl, .binary)
  else none

/-- The nine supported extensions. -/
def supportedExts : List String :=
  ["obj", "fbx", "stl", "ply", "dae", "3ds", "gltf", "glb", "3mf"]

/-- The (loaderKind, encoding) view of a lookup result: only an own-key
descriptor carries one. -/
def loaderEncodingOf : JSLookup → Option (LoaderType × Encoding)
  | .format f => some (f.loader, encOf f.readAs)
  | _ => none

/-- The resolver seen only through the extension it received. -/
def resolveExtJS (ext : String) : JSLookup :=
  match (if ext ≠ "" ∧ jsIn ext = true then some ext else none) with
  | none => .undefined
  | some e => FILE_FORMATS_lookup e

end Fmt

namespace Geo

/-- A 3-vector for the placement pipeline, standing for `THREE.Vector3`.
Placement uses only field operations and min/max, so its JS numbers are
embedded as rationals, keeping every definition executable. -/
@[ext]
structure Vec3 where
  x : ℚ
  y : ℚ
  z : ℚ
deriving DecidableEq, Repr

/-- `Vector3.add`. -/
def vadd (a b : Vec3) : Vec3 := ⟨a.x + b.x, a.y + b.y, a.z + b.z⟩

/-- `Vector3.sub` / `subVectors`. -/
def vsub (a b : Vec3) : Vec3 := ⟨a.x - b.x, a.y - b.y, a.z - b.z⟩

/-- `Vector3.negate`. -/
def vneg (a : Vec3) : Vec3 := ⟨-a.x, -a.y, -a.z⟩

/-- `Vector3.multiplyScalar`. -/
def vsmul (s : ℚ) (a : Vec3) : Vec3 := ⟨s * a.x, s * a.y, s * a.z⟩

/-- Componentwise minimum (`Vector3.min`, used by `Box3.expandByPoint`). -/
def vmin (a b : Vec3) : Vec3 := ⟨min a.x b.x, min a.y b.y, min a.z b.z⟩

/-- Componentwise maximum (`Vector3.max`). -/
def vmax (a b : Vec3) : Vec3 := ⟨max a.x b.x, max a.y b.y, max a.z b.z⟩

/-- Lower corner of the axis-aligned bounding box of a point list
(`Box3.setFromObject`, folding `expandByPoint`); `none` for an empty
object. -/
def boxLo : List Vec3 → Option Vec3
  | [] => none
  | v :: vs => some (vs.foldl vmin v)

/-- Upper corner of the axis-aligned bounding box of a point list. -/
def boxHi : List Vec3 → Option Vec3
  | [] => none
  | v :: vs => some (vs.foldl vmax v)

/-- `Box3.getSize`: `max - min`, or the zero vector for an empty box. -/
def boxSize3 (l : List Vec3) : Vec3 :=
  match boxLo l, boxHi l with
  | some lo, some hi => vsub hi lo
  | _, _ => ⟨0, 0, 0⟩

/-- `Box3.getCenter`: `(min + max) * 0.5`, or the zero vector for an empty
box. -/
def boxCenter3 (l : List Vec3) : Vec3 :=
  match boxLo l, boxHi l with
  | some lo, some hi => vsmul (1 / 2) (vadd lo hi)
  | _, _ => ⟨0, 0, 0⟩

/-- `Math.max(size.x, size.y, size.z)`. -/
def maxDim3 (v : Vec3) : ℚ := max v.x (max v.y v.z)

/-- A renderable asset as placement sees it: the geometry vertices in model
space together with the root object's uniform scale and position (the code
touches no other part of the transform; `scale.setScalar` keeps it
uniform). -/
structure Asset where
  verts : List Vec3
  scl : ℚ
  pos : Vec3
deriving DecidableEq, Repr

/-- The world-space image of a model-space point under the root transform:
`scl * v + pos`. -/
def aff (s : ℚ) (t v : Vec3) : Vec3 :=
  ⟨s * v.x + t.x, s * v.y + t.y, s * v.z + t.z⟩

/-- World-space vertices of an asset (`Box3.setFromObject` visits these). -/
def worldVerts (a : Asset) : List Vec3 := a.verts.map (aff a.scl a.pos)

/-- The placement step of `SceneService.addModel` (sceneService.ts lines
147-165) and `SceneManagerService.setupModelTransform`: compute the world
bounding box; if its largest dimension exceeds the threshold, set the scale
to `targetSize / maxDimension` (`scale.setScalar` replaces the scale),
recompute the box, and set the position to the negated recomputed center.
`thr` is `MODEL_CONSTANTS.BOUNDING_BOX.MIN_DIMENSION_THRESHOLD` and `T` is
`MODEL_CONSTANTS.DEFAULT_SCALE_SIZE` (the sibling implementation uses the
literals 0 and 3). -/
def placeModel (thr T : ℚ) (a : Asset) : Asset :=
  let d := maxDim3 (boxSize3 (worldVerts a))
  if thr < d then
    let s := T / d
    let a1 : Asset := { a with scl := s }
    let c := boxCenter3 (worldVerts a1)
    { a1 with pos := vneg c }
  else a

end Geo

namespace Cam

/-- A 3-vector for the camera controller; this part of the code goes through
square roots and trigonometry, so its JS numbers are embedded as real
numbers. -/
@[ext]
structure RV3 where
  x : ℝ
  y : ℝ
  z : ℝ

/-- `Vector3.add`. -/
def rvadd (a b : RV3) : RV3 := ⟨a.x + b.x, a.y + b.y, a.z + b.z⟩

/-- `Vector3.sub` / `subVectors`. -/
def rvsub (a b : RV3) : RV3 := ⟨a.x - b.x, a.y - b.y, a.z - b.z⟩

/-- `Vector3.multiplyScalar`. -/
def rvsmul (s : ℝ) (a : RV3) : RV3 := ⟨s * a.x, s * a.y, s * a.z⟩

/-- `Vector3.length`. -/
noncomputable def rvlen (v : RV3) : ℝ := Real.sqrt (v.x ^ 2 + v.y ^ 2 + v.z ^ 2)

/-- `Vector3.distanceTo`. -/
noncomputable def distTo (p q : RV3) : ℝ := rvlen (rvsub p q)

/-- `Vector3.normalize`: three.js divides by `length() || 1`, so the zero
vector normalizes to itself. -/
noncomputable def rvnormalize (v : RV3) : RV3 :=
  if rvlen v = 0 then v else rvsmul (1 / rvlen v) v

/-- `Math.atan2(y, x)`. -/
noncomputable def atan2 (y x : ℝ) : ℝ :=
  if 0 < x then Real.arctan (y / x)
  else if x < 0 then
    (if 0 ≤ y then Real.arctan (y / x) + Real.pi else Real.arctan (y / x) - Real.pi)
  else
    (if 0 < y then Real.pi / 2 else if y < 0 then -(Real.pi / 2) else 0)

/-- `THREE.Spherical`: radius, equator angle theta, polar angle phi. -/
structure Sph where
  radius : ℝ
  theta : ℝ
  phi : ℝ

/-- `Spherical.setFromVector3`: radius is the length; for the zero vector
theta and phi are 0; otherwise `theta = atan2(x, z)` and
`phi = acos(clamp(y / radius, -1, 1))`. -/
noncomputable def sphFromRV3 (v : RV3) : Sph :=
  if rvlen v = 0 then ⟨0, 0, 0⟩
  else ⟨rvlen v, atan2 v.x v.z,
    Real.arccos (max (-1) (min 1 (v.y / rvlen v)))⟩

/-- `Vector3.setFromSpherical`: `sinPhiRadius = sin(phi) * radius`,
`x = sinPhiRadius * sin(theta)`, `y = cos(phi) * radius`,
`z = sinPhiRadius * cos(theta)`. -/
noncomputable def rvFromSph (s : Sph) : RV3 :=
  ⟨Real.sin s.phi * s.radius * Real.sin s.theta,
   Real.cos s.phi * s.radius,
   Real.sin s.phi * s.radius * Real.cos s.theta⟩

/-- One orbit update of `handleSingleFingerRotation` (sceneManager.ts lines
142-166) / `rotateCameraSingleFinger` (sceneService.ts lines 302-321, where
the target is the origin): convert the camera offset to spherical
coordinates, apply the deltas scaled by the rotation speed, clamp `phi`
into `[lo, hi]` (`CAMERA_CONSTANTS.MIN_POLAR_ANGLE` /
`MAX_POLAR_ANGLE`; literal 0.1 and pi - 0.1 in the sibling code), and move
the camera back. -/
noncomputable def rotStep (speed lo hi : ℝ) (target : RV3) (pos : RV3)
    (d : ℝ × ℝ) : RV3 :=
  let offset := rvsub pos target
  let sph := sphFromRV3 offset
  let theta2 := sph.theta - d.1 * speed
  let phi2 := sph.phi + d.2 * speed
  let phi3 := max lo (min hi phi2)
  rvadd target (rvFromSph ⟨sph.radius, theta2, phi3⟩)

/-- The camera's polar angle relative to the orbit target. -/
noncomputable def polarAngle (target pos : RV3) : ℝ :=
  (sphFromRV3 (rvsub pos target)).phi

/-- One pinch-zoom update of `handlePinchZoom` (sceneManager.ts lines
190-213) / `zoomCamera`: move the camera along the radial direction by
`zoomDelta * 5`, then clamp the distance to the target into `[2, 20]` by
re-projecting normalized offsets. -/
noncomputable def pinchStep (target : RV3) (pos : RV3) (zoomDelta : ℝ) : RV3 :=
  let direction := rvnormalize (rvsub pos target)
  let zoomAmount := zoomDelta * 5
  let p1 := rvadd pos (rvsmul (-zoomAmount) direction)
  let dist := distTo p1 target
  if dist < 2 then rvadd target (rvsmul 2 (rvnormalize (rvsub p1 target)))
  else if 20 < dist then rvadd target (rvsmul 20 (rvnormalize (rvsub p1 target)))
  else p1

end Cam

namespace Hist

/-- `HistoryItem` record (shared/config/Database): id, name, raw bytes,
format string, size in bytes, timestamp in ms, optional thumbnail data
URL. Bytes are naturals, the empty string is the absent thumbnail. -/
structure HistoryItem where
  id : String
  name : String
  data : List Nat
  format : String
  size : Nat
  timestamp : Nat
  thumbnail : String
deriving DecidableEq, Repr

/-- The part of a `File` that `addToHistory` reads: name, size, bytes. -/
structure HFile where
  name : String
  size : Nat
  data : List Nat
deriving DecidableEq, Repr

/-- The impure inputs of one public `ModelHistoryServiceImpl` call:
the capability probes, whether the Dexie reads/writes of this call
succeed, `Date.now()`, `generateId()` and the generated thumbnail. -/
structure CallEnv where
  probeDexie : Bool
  hasLocalStorage : Bool
  findOk : Bool
  writeOk : Bool
  now : Nat
  newId : String
  thumb : String
deriving DecidableEq, Repr

/-- The service-visible storage state: the `useDexie` flag, the Dexie
`history` table (insertion order) and the localStorage value under the
storage key (`none` when the key is absent). -/
structure HSState where
  useDexie : Bool
  dexie : List HistoryItem
  localStore : Option (List HistoryItem)
deriving DecidableEq, Repr

/-- Fresh service over empty storage; the `useDexie` field initializer is
`true`. -/
def initState : HSState := ⟨true, [], none⟩

/-- Private `getFileFormat`: `fileName.split('.').pop()?.toLowerCase() ||
'unknown'`. -/
def fmtOf (nm : String) : String :=
  let e := String.mk (((Fmt.splitOnDot nm.data).getLastD []).map Char.toLower)
  if e = "" then "unknown" else e

/-- `getLocalStorageHistory`: parse the stored list, `[]` when absent. -/
def lsHistory (s : HSState) : List HistoryItem := s.localStore.getD []

/-- `isSupported()`: probes Dexie first and, whenever that probe succeeds,
(re)sets `useDexie := true`; otherwise falls back to the localStorage
probe, setting `useDexie := false`; returns whether any storage is
available (leaving `useDexie` unchanged if not). -/
def checkSupport (env : CallEnv) (s : HSState) : Bool × HSState :=
  if env.probeDexie then (true, { s with useDexie := true })
  else if env.hasLocalStorage then (true, { s with useDexie := false })
  else (false, s)

/-- `db.history.where({name, size}).first()` / the localStorage
`find(item => item.name === name && item.size === size)`. -/
def findPair (nm : String) (sz : Nat) (l : List HistoryItem) : Option HistoryItem :=
  l.find? (fun it => it.name == nm && it.size == sz)

/-- `db.history.get(id)` / `find(item => item.id === id)`. -/
def findId (i : String) (l : List HistoryItem) : Option HistoryItem :=
  l.find? (fun it => it.id == i)

/-- `findExistingItem(name, size)`: Dexie search when `useDexie`, falling
back (and clearing the flag) when the Dexie read fails. -/
def findExistingItem (env : CallEnv) (nm : String) (sz : Nat) (s : HSState) :
    Option HistoryItem × HSState :=
  if s.useDexie then
    if env.findOk then (findPair nm sz s.dexie, s)
    else (findPair nm sz (lsHistory s), { s with useDexie := false })
  else (findPair nm sz (lsHistory s), s)

/-- `moveToTopInLocalStorage(id)`: throws when the key is absent or the id
is not found; otherwise splices the item out, refreshes its timestamp and
unshifts it to the front. -/
def moveToTopLS (now : Nat) (i : String) (s : HSState) :
    Except String (String × HSState) :=
  match s.localStore with
  | none => .error "No history data found"
  | some hist =>
    match findId i hist with
    | none => .error "Item not found"
    | some it =>
      let rest := hist.eraseP (fun x => x.id == i)
      let item2 := { it with timestamp := now }
      .ok (i, { s with localStore := some (item2 :: rest) })

/-- `moveToTop(id)`: on the Dexie path, `get` then `put` with a fresh
timestamp; both a failing Dexie operation and the explicitly thrown
"Item not found" land in the catch, which clears `useDexie` and retries on
localStorage. -/
def moveToTop (env : CallEnv) (i : String) (s : HSState) :
    Except String (String × HSState) :=
  if s.useDexie then
    if env.writeOk then
      match findId i s.dexie with
      | some _ =>
        let upd := s.dexie.map
          (fun it => if it.id == i then { it with timestamp := env.now } else it)
        .ok (i, { s with dexie := upd })
      | none => moveToTopLS env.now i { s with useDexie := false }
    else moveToTopLS env.now i { s with useDexie := false }
  else moveToTopLS env.now i s

/-- `orderBy('timestamp')`: the table sorted by ascending timestamp. -/
def sortByTs (l : List HistoryItem) : List HistoryItem :=
  List.insertionSort (fun a b => a.timestamp ≤ b.timestamp) l

/-- `cleanupOldItemsDexie()`: when the count exceeds the capacity, collect
the `count - cap` oldest items by ascending timestamp and `bulkDelete`
their ids. -/
def cleanupDexie (cap : Nat) (s : HSState) : HSState :=
  if s.dexie.length > cap then
    let oldest := (sortByTs s.dexie).take (s.dexie.length - cap)
    let idsToDelete := oldest.map (fun it => it.id)
    { s with dexie := s.dexie.filter (fun it => !(idsToDelete.contains it.id)) }
  else s

/-- `saveToLocalStorage(item)`: store a light copy (`data` emptied,
`thumbnail` dropped) at the front, truncated to the capacity. -/
def saveToLS (cap : Nat) (item : HistoryItem) (s : HSState) : String × HSState :=
  let light := { item with data := ([] : List Nat), thumbnail := "" }
  (item.id, { s with localStore := some ((light :: lsHistory s).take cap) })

/-- `addToHistory(file, model)` (part_001 lines 63-101): check support
(re-probing the backends), dedup by (name, size) via `moveToTop`, otherwise
build the item (fresh id, thumbnail, `Date.now()`) and insert it on the
active backend; a failing Dexie `add` (including a duplicate primary key)
falls into the catch, which clears `useDexie` and saves to localStorage;
on the Dexie path eviction runs afterwards. -/
def addToHistory (cap : Nat) (env : CallEnv) (f : HFile) (s : HSState) :
    Except String (String × HSState) :=
  match checkSupport env s with
  | (false, _) => .error "Storage is not supported"
  | (true, s1) =>
    match findExistingItem env f.name f.size s1 with
    | (some it, s2) => moveToTop env it.id s2
    | (none, s2) =>
      let item : HistoryItem :=
        ⟨env.newId, f.name, f.data, fmtOf f.name, f.size, env.now, env.thumb⟩
      if s2.useDexie then
        if env.writeOk = true ∧ ∀ it2 ∈ s2.dexie, it2.id ≠ item.id then
          .ok (item.id, cleanupDexie cap { s2 with dexie := s2.dexie ++ [item] })
        else .ok (saveToLS cap item { s2 with useDexie := false })
      else .ok (saveToLS cap item s2)

/-- `getHistoryItem(id)` (part_001 lines 128-151): check support, then a
Dexie `get` (falling back, and clearing the flag, if the read fails) or a
localStorage lookup. -/
def getHistoryItem (env : CallEnv) (i : String) (s : HSState) :
    Option HistoryItem × HSState :=
  match checkSupport env s with
  | (false, s1) => (none, s1)
  | (true, s1) =>
    if s1.useDexie then
      if env.findOk then (findId i s1.dexie, s1)
      else (findId i (lsHistory s1), { s1 with useDexie := false })
    else (findId i (lsHistory s1), s1)

/-- The sequential-adds trace of the section-8 eviction scenario: the k-th
call uses the k-th call environment and the k-th file; a failing call
leaves the state unchanged (never reached in the scenario). -/
def runAdds (cap : Nat) (envf : Nat → CallEnv) (filef : Nat → HFile) :
    Nat → HSState
  | 0 => initState
  | k + 1 =>
    match addToHistory cap (envf k) (filef k) (runAdds cap envf filef k) with
    | .ok (_, s2) => s2
    | .error _ => runAdds cap envf filef k

end Hist

namespace Fmt

theorem resolveFormat_eq_resolveExtJS (filename : String) :
    resolveFormat filename = resolveExtJS (jsExt filename) := rfl

theorem resolveExtJS_spec (ext : String) (h : ext ∉ protoKeys) :
    loaderEncodingOf (resolveExtJS ext) = specResolve ext ∧
    (resolveExtJS ext = .undefined ↔ specResolve ext = none) := by
  by_cases h1 : ext = "obj"
  · subst h1; decide
  by_cases h2 : ext = "fbx"
  · subst h2; decide
  by_cases h3 : ext = "stl"
  · subst h3; decide
  by_cases h4 : ext = "ply"
  · subst h4; decide
  by_cases h5 : ext = "dae"
  · subst h5; decide
  by_cases h6 : ext = "3ds"
  · subst h6; decide
  by_cases h7 : ext = "gltf"
  · subst h7; decide
  by_cases h8 : ext = "glb"
  · subst h8; decide
  by_cases h9 : ext = "3mf"
  · subst h9; decide
  have hff : FILE_FORMATS ext = none := by
    simp [FILE_FORMATS, h1, h2, h3, h4, h5, h6, h7, h8, h9]
  have hjs : jsIn ext = false := by
    simp [jsIn, hff, h]
  have hres : resolveExtJS ext = .undefined := by
    simp [resolveExtJS, hjs]
  rw [hres]
  simp [loaderEncodingOf, specResolve, h1, h2, h3, h4, h5, h6, h7, h8, h9]

theorem resolveExtJS_undef (ext : String) (h9 : ext ∉ supportedExts)
    (hp : ext ∉ protoKeys) : resolveExtJS ext = .undefined := by
  simp only [supportedExts, List.mem_cons, List.not_mem_nil, or_false,
    not_or] at h9
  obtain ⟨k1, k2, k3, k4, k5, k6, k7, k8, k9⟩ := h9
  have hff : FILE_FORMATS ext = none := by
    simp [FILE_FORMATS, k1, k2, k3, k4, k5, k6, k7, k8, k9]
  simp [resolveExtJS, jsIn, hff, hp]

end Fmt

/-- Claim C1 (code bug): for every file name whose lowercased final suffix
is not an inherited `Object.prototype` key, the resolver returns exactly
the loaderKind and read-encoding pair of the section-6 table for the nine
supported extensions (obj→obj/text, fbx→fbx/binary, stl→stl/binary,
ply→ply/binary, dae→collada/text, 3ds→obj/binary, gltf→gltf/binary,
glb→gltf/binary, 3mf→stl/binary) and none otherwise; but the claim's
"none for every other extension" half fails at the concrete input
"x.constructor": the JS `in` operator also sees the inherited
`Object.prototype` keys, so the program accepts the extension and the
lookup returns the inherited member — a truthy non-descriptor — instead
of none, contradicting the declared return type
`SupportedFileExtension | null`. -/
theorem claim_C1_resolver_table :
    (∀ filename : String, Fmt.jsExt filename ∉ Fmt.protoKeys →
      Fmt.loaderEncodingOf (Fmt.resolveFormat filename)
          = Fmt.specResolve (Fmt.jsExt filename) ∧
      (Fmt.resolveFormat filename = .undefined ↔
        Fmt.specResolve (Fmt.jsExt filename) = none)) ∧
    Fmt.resolveFormat "x.constructor" = .inherited "constructor" := by
  constructor
  · intro filename h
    rw [Fmt.resolveFormat_eq_resolveExtJS]
    exact Fmt.resolveExtJS_spec _ h
  · decide

/-- Witness for the C1 theorem at the concrete input "model.obj" (whose
suffix is not an inherited key). -/
theorem claim_C1_witness :
    (Fmt.jsExt "model.obj" ∉ Fmt.protoKeys) ∧
    (Fmt.loaderEncodingOf (Fmt.resolveFormat "model.obj")
        = Fmt.specResolve (Fmt.jsExt "model.obj") ∧
      (Fmt.resolveFormat "model.obj" = .undefined ↔
        Fmt.specResolve (Fmt.jsExt "model.obj") = none)) :=
  ⟨by decide, claim_C1_resolver_table.1 "model.obj" (by decide)⟩

/-- Claim C10 (code bug): the resolver is a pure function of the file
name's lowercased final dot-suffix (hence case-insensitive and, for names
with several dots, dependent on the final suffix only), and it returns
none for any extension outside the nine supported values other than the
inherited `Object.prototype` keys; the claim's "none for any extension
outside the nine" part fails at the concrete input "x.__proto__", where
the JS `in` check passes on the inherited key and the program returns the
inherited member instead of none. -/
theorem claim_C10_resolver_pure :
    (∀ a b : String, Fmt.jsExt a = Fmt.jsExt b →
        Fmt.resolveFormat a = Fmt.resolveFormat b) ∧
    (∀ a : String, Fmt.jsExt a ∉ Fmt.supportedExts →
        Fmt.jsExt a ∉ Fmt.protoKeys → Fmt.resolveFormat a = .undefined) ∧
    Fmt.resolveFormat "x.__proto__" = .inherited "__proto__" := by
  refine ⟨?_, ?_, by decide⟩
  · intro a b h
    rw [Fmt.resolveFormat_eq_resolveExtJS, Fmt.resolveFormat_eq_resolveExtJS, h]
  · intro a h9 hp
    rw [Fmt.resolveFormat_eq_resolveExtJS]
    exact Fmt.resolveExtJS_undef _ h9 hp

/-- Witness for the C10 theorem: "MODEL.OBJ" and "a.b.obj" share the final
lowercased suffix "obj" and resolve identically, and "scene.txt" is
neither supported nor an inherited key, so it resolves to none. -/
theorem claim_C10_witness :
    (Fmt.jsExt "MODEL.OBJ" = Fmt.jsExt "a.b.obj" ∧
      Fmt.resolveFormat "MODEL.OBJ" = Fmt.resolveFormat "a.b.obj") ∧
    (Fmt.jsExt "scene.txt" ∉ Fmt.supportedExts ∧
      Fmt.jsExt "scene.txt" ∉ Fmt.protoKeys ∧
      Fmt.resolveFormat "scene.txt" = .undefined) := by
  refine ⟨⟨by decide, claim_C10_resolver_pure.1 "MODEL.OBJ" "a.b.obj" (by decide)⟩,
    by decide, by decide,
    claim_C10_resolver_pure.2.1 "scene.txt" (by decide) (by decide)⟩

namespace Geo

theorem min_affine (s t a b : ℚ) (hs : 0 ≤ s) :
    min (s * a + t) (s * b + t) = s * min a b + t := by
  rcases le_total a b with h | h
  · rw [min_eq_left (by nlinarith), min_eq_left h]
  · rw [min_eq_right (by nlinarith), min_eq_right h]

theorem max_affine (s t a b : ℚ) (hs : 0 ≤ s) :
    max (s * a + t) (s * b + t) = s * max a b + t := by
  rcases le_total a b with h | h
  · rw [max_eq_right (by nlinarith), max_eq_right h]
  · rw [max_eq_left (by nlinarith), max_eq_left h]

theorem mul_max3 (s a b c : ℚ) (hs : 0 ≤ s) :
    max (s * a) (max (s * b) (s * c)) = s * max a (max b c) := by
  have h1 : max (s * b) (s * c) = s * max b c := by
    have := max_affine s 0 b c hs; simpa using this
  have h2 : max (s * a) (s * max b c) = s * max a (max b c) := by
    have := max_affine s 0 a (max b c) hs; simpa using this
  rw [h1, h2]

theorem vmin_aff (s : ℚ) (t : Vec3) (hs : 0 ≤ s) (a b : Vec3) :
    vmin (aff s t a) (aff s t b) = aff s t (vmin a b) := by
  simp [vmin, aff, min_affine _ _ _ _ hs]

theorem vmax_aff (s : ℚ) (t : Vec3) (hs : 0 ≤ s) (a b : Vec3) :
    vmax (aff s t a) (aff s t b) = aff s t (vmax a b) := by
  simp [vmax, aff, max_affine _ _ _ _ hs]

theorem foldl_vmin_aff (s : ℚ) (t : Vec3) (hs : 0 ≤ s) :
    ∀ (vs : List Vec3) (v : Vec3),
      (vs.map (aff s t)).foldl vmin (aff s t v) = aff s t (vs.foldl vmin v) := by
  intro vs
  induction vs with
  | nil => intro v; rfl
  | cons w ws ih =>
    intro v
    simp only [List.map_cons, List.foldl_cons, vmin_aff s t hs]
    exact ih _

theorem foldl_vmax_aff (s : ℚ) (t : Vec3) (hs : 0 ≤ s) :
    ∀ (vs : List Vec3) (v : Vec3),
      (vs.map (aff s t)).foldl vmax (aff s t v) = aff s t (vs.foldl vmax v) := by
  intro vs
  induction vs with
  | nil => intro v; rfl
  | cons w ws ih =>
    intro v
    simp only [List.map_cons, List.foldl_cons, vmax_aff s t hs]
    exact ih _

theorem boxLo_map_aff (s : ℚ) (t : Vec3) (hs : 0 ≤ s) (l : List Vec3) :
    boxLo (l.map (aff s t)) = (boxLo l).map (aff s t) := by
  cases l with
  | nil => rfl
  | cons v vs => simp [boxLo, foldl_vmin_aff s t hs]

theorem boxHi_map_aff (s : ℚ) (t : Vec3) (hs : 0 ≤ s) (l : List Vec3) :
    boxHi (l.map (aff s t)) = (boxHi l).map (aff s t) := by
  cases l with
  | nil => rfl
  | cons v vs => simp [boxHi, foldl_vmax_aff s t hs]

theorem aff_one_zero (v : Vec3) : aff 1 ⟨0, 0, 0⟩ v = v := by
  simp [aff]

theorem worldVerts_identity (verts : List Vec3) :
    worldVerts ⟨verts, 1, ⟨0, 0, 0⟩⟩ = verts := by
  show verts.map (aff 1 ⟨0, 0, 0⟩) = verts
  induction verts with
  | nil => rfl
  | cons v vs ih => simp only [List.map_cons, aff_one_zero, ih]

end Geo

/-- Claim C9: for every asset whose world bounding box has zero (or
below-threshold) largest dimension, placement applies no scale and no
translation — the asset keeps its native transform — and no division by
zero occurs (the `targetSize / maxDimension` quotient is only evaluated on
the branch where the dimension exceeds the threshold). -/
theorem claim_C9_degenerate_noop (thr T : ℚ) (a : Geo.Asset)
    (h : ¬ thr < Geo.maxDim3 (Geo.boxSize3 (Geo.worldVerts a))) :
    Geo.placeModel thr T a = a := by
  simp only [Geo.placeModel]
  rw [if_neg h]

/-- Witness for C9: a one-point asset has a zero-size bounding box, and
placement with threshold 0 and target size 3 leaves it unchanged. -/
theorem claim_C9_witness :
    (¬ (0 : ℚ) < Geo.maxDim3 (Geo.boxSize3
        (Geo.worldVerts ⟨[⟨1, 2, 3⟩], 1, ⟨0, 0, 0⟩⟩))) ∧
    Geo.placeModel 0 3 ⟨[⟨1, 2, 3⟩], 1, ⟨0, 0, 0⟩⟩
      = (⟨[⟨1, 2, 3⟩], 1, ⟨0, 0, 0⟩⟩ : Geo.Asset) := by
  have h : ¬ (0 : ℚ) < Geo.maxDim3 (Geo.boxSize3
      (Geo.worldVerts ⟨[⟨1, 2, 3⟩], 1, ⟨0, 0, 0⟩⟩)) := by
    norm_num [Geo.worldVerts, Geo.aff, Geo.boxSize3, Geo.boxLo, Geo.boxHi,
      Geo.vsub, Geo.maxDim3]
  exact ⟨h, claim_C9_degenerate_noop 0 3 _ h⟩

/-- Claim C3, counterexample: the claim quantifies over every asset, but for
an asset whose root transform is not the identity (here scale 2, position
(5,0,0), two vertices spanning a box of largest dimension 2 > threshold 0)
the code replaces the scale (`scale.setScalar`) and the position computed
from the already-transformed box, so after placement the recomputed box is
centered at (-5,0,0), not the origin, and its largest dimension is 3/2, not
the target size 3. -/
theorem claim_C3_counterexample :
    (0 : ℚ) < Geo.maxDim3 (Geo.boxSize3 (Geo.worldVerts
        ⟨[⟨0, 0, 0⟩, ⟨1, 0, 0⟩], 2, ⟨5, 0, 0⟩⟩)) ∧
    Geo.boxCenter3 (Geo.worldVerts (Geo.placeModel 0 3
        ⟨[⟨0, 0, 0⟩, ⟨1, 0, 0⟩], 2, ⟨5, 0, 0⟩⟩)) ≠ ⟨0, 0, 0⟩ ∧
    Geo.maxDim3 (Geo.boxSize3 (Geo.worldVerts (Geo.placeModel 0 3
        ⟨[⟨0, 0, 0⟩, ⟨1, 0, 0⟩], 2, ⟨5, 0, 0⟩⟩))) ≠ 3 := by
  refine ⟨by norm_num [Geo.worldVerts, Geo.aff, Geo.boxSize3, Geo.boxLo,
    Geo.boxHi, Geo.vsub, Geo.vmin, Geo.vmax, Geo.maxDim3], ?_, ?_⟩
  · norm_num [Geo.placeModel, Geo.worldVerts, Geo.aff, Geo.boxSize3,
      Geo.boxLo, Geo.boxHi, Geo.boxCenter3, Geo.vsub, Geo.vadd, Geo.vsmul,
      Geo.vneg, Geo.vmin, Geo.vmax, Geo.maxDim3, Geo.Vec3.ext_iff]
  · norm_num [Geo.placeModel, Geo.worldVerts, Geo.aff, Geo.boxSize3,
      Geo.boxLo, Geo.boxHi, Geo.boxCenter3, Geo.vsub, Geo.vadd, Geo.vsmul,
      Geo.vneg, Geo.vmin, Geo.vmax, Geo.maxDim3]

/-- Claim C3 as amended: for every asset whose root transform is the
identity (unit scale, zero position — e.g. fresh loader output, which is
what `addModel` receives) and whose world bounding box has largest
dimension above the threshold, after `SceneService.addModel`'s placement
the recomputed bounding box is centered at the origin and its largest
dimension equals the configured target size.
(`SceneManagerService.setupModelTransform` differs only by seating the
model on the ground plane in y.) -/
theorem claim_C3_place_centers_and_scales (thr T : ℚ) (verts : List Geo.Vec3)
    (hthr : 0 ≤ thr) (hT : 0 < T)
    (hd : thr < Geo.maxDim3 (Geo.boxSize3 (Geo.worldVerts ⟨verts, 1, ⟨0, 0, 0⟩⟩))) :
    Geo.boxCenter3 (Geo.worldVerts (Geo.placeModel thr T ⟨verts, 1, ⟨0, 0, 0⟩⟩))
        = ⟨0, 0, 0⟩ ∧
    Geo.maxDim3 (Geo.boxSize3 (Geo.worldVerts
        (Geo.placeModel thr T ⟨verts, 1, ⟨0, 0, 0⟩⟩))) = T := by
  classical
  rw [Geo.worldVerts_identity] at hd
  cases verts with
  | nil =>
    exfalso
    simp only [Geo.boxSize3, Geo.boxLo, Geo.boxHi, Geo.maxDim3] at hd
    norm_num at hd
    linarith
  | cons v vs =>
    set d := Geo.maxDim3 (Geo.boxSize3 (v :: vs)) with hdef
    have hd0 : 0 < d := lt_of_le_of_lt hthr hd
    have hs0 : 0 ≤ T / d := le_of_lt (div_pos hT hd0)
    set l₀ := vs.foldl Geo.vmin v with hl₀
    set h₀ := vs.foldl Geo.vmax v with hh₀
    have hboxLo : Geo.boxLo (v :: vs) = some l₀ := rfl
    have hboxHi : Geo.boxHi (v :: vs) = some h₀ := rfl
    have hplace : Geo.placeModel thr T ⟨v :: vs, 1, ⟨0, 0, 0⟩⟩ =
        ⟨v :: vs, T / d,
          Geo.vneg (Geo.boxCenter3 ((v :: vs).map (Geo.aff (T / d) ⟨0, 0, 0⟩)))⟩ := by
      simp only [Geo.placeModel, Geo.worldVerts_identity, ← hdef]
      rw [if_pos hd]
      rfl
    have hc : Geo.boxCenter3 ((v :: vs).map (Geo.aff (T / d) ⟨0, 0, 0⟩)) =
        Geo.vsmul (1 / 2) (Geo.vadd (Geo.aff (T / d) ⟨0, 0, 0⟩ l₀)
          (Geo.aff (T / d) ⟨0, 0, 0⟩ h₀)) := by
      simp only [Geo.boxCenter3, Geo.boxLo_map_aff _ _ hs0, Geo.boxHi_map_aff _ _ hs0,
        hboxLo, hboxHi, Option.map_some']
    set q := Geo.vneg (Geo.boxCenter3 ((v :: vs).map (Geo.aff (T / d) ⟨0, 0, 0⟩))) with hq
    have hfinalLo : Geo.boxLo ((v :: vs).map (Geo.aff (T / d) q)) =
        some (Geo.aff (T / d) q l₀) := by
      rw [Geo.boxLo_map_aff _ _ hs0, hboxLo, Option.map_some']
    have hfinalHi : Geo.boxHi ((v :: vs).map (Geo.aff (T / d) q)) =
        some (Geo.aff (T / d) q h₀) := by
      rw [Geo.boxHi_map_aff _ _ hs0, hboxHi, Option.map_some']
    constructor
    · rw [hplace]
      show Geo.boxCenter3 ((v :: vs).map (Geo.aff (T / d) q)) = ⟨0, 0, 0⟩
      simp only [Geo.boxCenter3, hfinalLo, hfinalHi]
      rw [hq, hc]
      ext <;> simp [Geo.aff, Geo.vadd, Geo.vsmul, Geo.vneg] <;> ring
    · rw [hplace]
      show Geo.maxDim3 (Geo.boxSize3 ((v :: vs).map (Geo.aff (T / d) q))) = T
      simp only [Geo.boxSize3, hfinalLo, hfinalHi]
      have hsub : Geo.vsub (Geo.aff (T / d) q h₀) (Geo.aff (T / d) q l₀) =
          ⟨T / d * (h₀.x - l₀.x), T / d * (h₀.y - l₀.y), T / d * (h₀.z - l₀.z)⟩ := by
        ext <;> simp [Geo.aff, Geo.vsub] <;> ring
      rw [hsub]
      show max (T / d * (h₀.x - l₀.x))
          (max (T / d * (h₀.y - l₀.y)) (T / d * (h₀.z - l₀.z))) = T
      rw [Geo.mul_max3 _ _ _ _ hs0]
      have hdval : d = max (h₀.x - l₀.x) (max (h₀.y - l₀.y) (h₀.z - l₀.z)) := by
        rw [hdef]
        simp only [Geo.boxSize3, hboxLo, hboxHi, Geo.vsub, Geo.maxDim3]
      rw [← hdval]
      exact div_mul_cancel₀ T (ne_of_gt hd0)

/-- Witness for the amended C3: the 2-unit cube with identity transform,
threshold 0 and target size 3 (the scenario of section 8) ends up centered
at the origin with largest dimension 3. -/
theorem claim_C3_witness :
    ((0 : ℚ) ≤ 0 ∧ (0 : ℚ) < 3 ∧
      (0 : ℚ) < Geo.maxDim3 (Geo.boxSize3 (Geo.worldVerts
        ⟨[⟨-1, -1, -1⟩, ⟨1, 1, 1⟩], 1, ⟨0, 0, 0⟩⟩))) ∧
    Geo.boxCenter3 (Geo.worldVerts (Geo.placeModel 0 3
        ⟨[⟨-1, -1, -1⟩, ⟨1, 1, 1⟩], 1, ⟨0, 0, 0⟩⟩)) = ⟨0, 0, 0⟩ ∧
    Geo.maxDim3 (Geo.boxSize3 (Geo.worldVerts (Geo.placeModel 0 3
        ⟨[⟨-1, -1, -1⟩, ⟨1, 1, 1⟩], 1, ⟨0, 0, 0⟩⟩))) = 3 := by
  have hd : (0 : ℚ) < Geo.maxDim3 (Geo.boxSize3 (Geo.worldVerts
      ⟨[⟨-1, -1, -1⟩, ⟨1, 1, 1⟩], 1, ⟨0, 0, 0⟩⟩)) := by
    norm_num [Geo.worldVerts, Geo.aff, Geo.boxSize3, Geo.boxLo, Geo.boxHi,
      Geo.vsub, Geo.vmin, Geo.vmax, Geo.maxDim3]
  exact ⟨⟨le_refl 0, by norm_num, hd⟩,
    claim_C3_place_centers_and_scales 0 3 _ (le_refl 0) (by norm_num) hd⟩

namespace Cam

theorem rvsub_eq_zero_iff (a b : RV3) : rvsub a b = ⟨0, 0, 0⟩ ↔ a = b := by
  constructor
  · intro h
    simp only [rvsub, RV3.mk.injEq] at h
    obtain ⟨h1, h2, h3⟩ := h
    ext <;> linarith
  · intro h
    subst h
    simp [rvsub]

theorem rvsub_self (a : RV3) : rvsub a a = ⟨0, 0, 0⟩ := by
  simp [rvsub]

theorem rvsub_rvadd_cancel (t v : RV3) : rvsub (rvadd t v) t = v := by
  ext <;> simp [rvsub, rvadd]

theorem rvlen_nonneg (v : RV3) : 0 ≤ rvlen v := Real.sqrt_nonneg _

theorem rvlen_eq_zero_iff (v : RV3) : rvlen v = 0 ↔ v = ⟨0, 0, 0⟩ := by
  constructor
  · intro h
    have hsum : v.x ^ 2 + v.y ^ 2 + v.z ^ 2 ≤ 0 := by
      have := Real.sqrt_eq_zero'.mp h
      simpa using this
    have hx : v.x ^ 2 = 0 := by nlinarith [sq_nonneg v.x, sq_nonneg v.y, sq_nonneg v.z]
    have hy : v.y ^ 2 = 0 := by nlinarith [sq_nonneg v.x, sq_nonneg v.y, sq_nonneg v.z]
    have hz : v.z ^ 2 = 0 := by nlinarith [sq_nonneg v.x, sq_nonneg v.y, sq_nonneg v.z]
    have hx0 := (pow_eq_zero_iff two_ne_zero).mp hx
    have hy0 := (pow_eq_zero_iff two_ne_zero).mp hy
    have hz0 := (pow_eq_zero_iff two_ne_zero).mp hz
    ext <;> assumption
  · intro h
    rw [h]
    simp [rvlen]

theorem rvlen_pos_of_ne (v : RV3) (h : v ≠ ⟨0, 0, 0⟩) : 0 < rvlen v :=
  lt_of_le_of_ne (rvlen_nonneg v) (fun he => h ((rvlen_eq_zero_iff v).mp he.symm))

theorem rvlen_smul (s : ℝ) (v : RV3) : rvlen (rvsmul s v) = |s| * rvlen v := by
  simp only [rvlen, rvsmul]
  rw [show (s * v.x) ^ 2 + (s * v.y) ^ 2 + (s * v.z) ^ 2
      = s ^ 2 * (v.x ^ 2 + v.y ^ 2 + v.z ^ 2) by ring,
    Real.sqrt_mul (sq_nonneg s), Real.sqrt_sq_eq_abs]

theorem rvlen_rvFromSph (s : Sph) : rvlen (rvFromSph s) = |s.radius| := by
  simp only [rvlen, rvFromSph]
  rw [show (Real.sin s.phi * s.radius * Real.sin s.theta) ^ 2
        + (Real.cos s.phi * s.radius) ^ 2
        + (Real.sin s.phi * s.radius * Real.cos s.theta) ^ 2
      = ((Real.sin s.theta ^ 2 + Real.cos s.theta ^ 2) * Real.sin s.phi ^ 2
          + Real.cos s.phi ^ 2) * s.radius ^ 2 by ring,
    Real.sin_sq_add_cos_sq, one_mul, Real.sin_sq_add_cos_sq, one_mul,
    Real.sqrt_sq_eq_abs]

theorem rvnormalize_len (v : RV3) (h : rvlen v ≠ 0) :
    rvlen (rvnormalize v) = 1 := by
  have h0 : 0 < rvlen v := lt_of_le_of_ne (rvlen_nonneg v) (Ne.symm h)
  simp only [rvnormalize]
  rw [if_neg h, rvlen_smul, abs_of_pos (by positivity : (0:ℝ) < 1 / rvlen v)]
  field_simp

theorem rotStep_spec (speed lo hi : ℝ) (hlo : 0 < lo) (hlohi : lo ≤ hi)
    (hhi : hi ≤ Real.pi) (target pos : RV3) (hpt : pos ≠ target) (d : ℝ × ℝ) :
    rotStep speed lo hi target pos d ≠ target ∧
    lo ≤ polarAngle target (rotStep speed lo hi target pos d) ∧
    polarAngle target (rotStep speed lo hi target pos d) ≤ hi := by
  have hoff : rvsub pos target ≠ ⟨0, 0, 0⟩ :=
    fun h => hpt ((rvsub_eq_zero_iff _ _).mp h)
  have hr : 0 < rvlen (rvsub pos target) := rvlen_pos_of_ne _ hoff
  have hrne : rvlen (rvsub pos target) ≠ 0 := ne_of_gt hr
  have hsph : sphFromRV3 (rvsub pos target) =
      ⟨rvlen (rvsub pos target),
        atan2 (rvsub pos target).x (rvsub pos target).z,
        Real.arccos (max (-1)
          (min 1 ((rvsub pos target).y / rvlen (rvsub pos target))))⟩ := by
    simp only [sphFromRV3]
    rw [if_neg hrne]
  set r := rvlen (rvsub pos target) with hrdef
  set A := Real.arccos (max (-1)
    (min 1 ((rvsub pos target).y / r))) with hAdef
  set th2 := atan2 (rvsub pos target).x (rvsub pos target).z - d.1 * speed with hth
  set phi3 := max lo (min hi (A + d.2 * speed)) with hphi
  have hstep : rotStep speed lo hi target pos d
      = rvadd target (rvFromSph ⟨r, th2, phi3⟩) := by
    simp only [rotStep, hsph]
  have hphlo : lo ≤ phi3 := le_max_left _ _
  have hphhi : phi3 ≤ hi := max_le hlohi (min_le_left _ _)
  have hph0 : 0 ≤ phi3 := le_trans (le_of_lt hlo) hphlo
  have hphpi : phi3 ≤ Real.pi := le_trans hphhi hhi
  have hwlen : rvlen (rvFromSph ⟨r, th2, phi3⟩) = r := by
    rw [rvlen_rvFromSph]
    exact abs_of_pos hr
  have hwne : rvFromSph ⟨r, th2, phi3⟩ ≠ ⟨0, 0, 0⟩ := by
    intro h
    rw [(rvlen_eq_zero_iff _).mpr h] at hwlen
    exact absurd hwlen.symm (ne_of_gt hr)
  have hoffres : rvsub (rotStep speed lo hi target pos d) target
      = rvFromSph ⟨r, th2, phi3⟩ := by
    rw [hstep, rvsub_rvadd_cancel]
  have hpolar : polarAngle target (rotStep speed lo hi target pos d) = phi3 := by
    rw [polarAngle, hoffres]
    simp only [sphFromRV3]
    rw [if_neg (by rw [hwlen]; exact ne_of_gt hr), hwlen]
    have hy : (rvFromSph ⟨r, th2, phi3⟩).y = Real.cos phi3 * r := rfl
    rw [hy, mul_div_cancel_right₀ _ (ne_of_gt hr),
      min_eq_right (Real.cos_le_one phi3),
      max_eq_right (Real.neg_one_le_cos phi3),
      Real.arccos_cos hph0 hphpi]
  refine ⟨?_, ?_, ?_⟩
  · intro h
    apply hwne
    rw [← hoffres, h]
    exact rvsub_self target
  · rw [hpolar]; exact hphlo
  · rw [hpolar]; exact hphhi

theorem rotFold_spec (speed lo hi : ℝ) (hlo : 0 < lo) (hlohi : lo ≤ hi)
    (hhi : hi ≤ Real.pi) (target : RV3) :
    ∀ (ds : List (ℝ × ℝ)) (p0 : RV3), p0 ≠ target →
      (ds.foldl (rotStep speed lo hi target) p0 ≠ target) ∧
      (ds ≠ [] →
        lo ≤ polarAngle target (ds.foldl (rotStep speed lo hi target) p0) ∧
        polarAngle target (ds.foldl (rotStep speed lo hi target) p0) ≤ hi) := by
  intro ds
  induction ds with
  | nil =>
    intro p0 h
    exact ⟨h, fun hc => absurd rfl hc⟩
  | cons d ds ih =>
    intro p0 h
    obtain ⟨h1, h2, h3⟩ := rotStep_spec speed lo hi hlo hlohi hhi target p0 h d
    obtain ⟨ih1, ih2⟩ := ih (rotStep speed lo hi target p0 d) h1
    rw [List.foldl_cons]
    refine ⟨ih1, fun _ => ?_⟩
    by_cases hds : ds = []
    · subst hds
      exact ⟨h2, h3⟩
    · exact ih2 hds

end Cam

/-- Claim C7: for every sequence of single-pointer drag deltas applied
through the camera controller's orbit path (`rotateCameraSingleFinger` /
`handleSingleFingerRotation`), the camera's polar angle relative to the
orbit target stays strictly inside `(eps, pi - eps)` after each update,
for any margin `eps` strictly below the clamp bounds
(`CAMERA_CONSTANTS.MIN_POLAR_ANGLE = lo`, `MAX_POLAR_ANGLE = hi`; the
sibling implementation uses 0.1 and pi - 0.1), starting from any camera
position distinct from the target. Quantifying over the whole delta list
covers every prefix, hence every intermediate update. -/
theorem claim_C7_orbit_polar_invariant (speed lo hi eps : ℝ)
    (target p0 : Cam.RV3) (ds : List (ℝ × ℝ))
    (heps : 0 < eps) (hepslo : eps < lo) (hlohi : lo ≤ hi)
    (hhi : hi < Real.pi - eps) (hp0 : p0 ≠ target) (hds : ds ≠ []) :
    Cam.polarAngle target (ds.foldl (Cam.rotStep speed lo hi target) p0)
      ∈ Set.Ioo eps (Real.pi - eps) := by
  have hlo : 0 < lo := lt_trans heps hepslo
  have hhi' : hi ≤ Real.pi := le_trans (le_of_lt hhi) (by linarith)
  obtain ⟨-, hb⟩ := Cam.rotFold_spec speed lo hi hlo hlohi hhi' target ds p0 hp0
  obtain ⟨hb1, hb2⟩ := hb hds
  exact ⟨lt_of_lt_of_le hepslo hb1, lt_of_le_of_lt hb2 hhi⟩

/-- Witness for C7: rotation speed 0.005, clamp bounds 0.1 and pi - 0.1
(the sibling implementation's literals), margin 1/20, camera at (0,0,5)
orbiting the origin, one drag delta (1,1). -/
theorem claim_C7_witness :
    ((0:ℝ) < 1/20 ∧ (1/20 : ℝ) < 1/10 ∧ (1/10 : ℝ) ≤ Real.pi - 1/10 ∧
      Real.pi - 1/10 < Real.pi - 1/20 ∧
      (⟨0, 0, 5⟩ : Cam.RV3) ≠ ⟨0, 0, 0⟩ ∧ ([((1:ℝ), (1:ℝ))] : List (ℝ × ℝ)) ≠ []) ∧
    Cam.polarAngle ⟨0, 0, 0⟩
      (([((1:ℝ), (1:ℝ))]).foldl
        (Cam.rotStep (1/200) (1/10) (Real.pi - 1/10) ⟨0, 0, 0⟩) ⟨0, 0, 5⟩)
      ∈ Set.Ioo (1/20 : ℝ) (Real.pi - 1/20) := by
  have hpi := Real.pi_gt_three
  have h1 : (0:ℝ) < 1/20 := by norm_num
  have h2 : (1/20 : ℝ) < 1/10 := by norm_num
  have h3 : (1/10 : ℝ) ≤ Real.pi - 1/10 := by linarith
  have h4 : Real.pi - 1/10 < Real.pi - 1/20 := by linarith
  have h5 : (⟨0, 0, 5⟩ : Cam.RV3) ≠ ⟨0, 0, 0⟩ := by
    intro h
    simp only [Cam.RV3.mk.injEq] at h
    norm_num at h
  have h6 : ([((1:ℝ), (1:ℝ))] : List (ℝ × ℝ)) ≠ [] := by simp
  exact ⟨⟨h1, h2, h3, h4, h5, h6⟩,
    claim_C7_orbit_polar_invariant (1/200) (1/10) (Real.pi - 1/10) (1/20)
      ⟨0, 0, 0⟩ ⟨0, 0, 5⟩ _ h1 h2 h3 h4 h5 h6⟩

namespace Cam

theorem pinch_offset (pos target : RV3) (a : ℝ)
    (hr : rvlen (rvsub pos target) ≠ 0) :
    rvsub (rvadd pos (rvsmul (-a) (rvnormalize (rvsub pos target)))) target
      = rvsmul (1 - a / rvlen (rvsub pos target)) (rvsub pos target) := by
  simp only [rvnormalize]
  rw [if_neg hr]
  ext <;> simp only [rvsub, rvadd, rvsmul] <;> field_simp <;> ring

theorem pinchStep_dist (target pos : RV3) (zoomDelta : ℝ)
    (hpos : 0 < distTo pos target) (hne : zoomDelta * 5 ≠ distTo pos target) :
    2 ≤ distTo (pinchStep target pos zoomDelta) target ∧
    distTo (pinchStep target pos zoomDelta) target ≤ 20 := by
  have hr0 : 0 < rvlen (rvsub pos target) := hpos
  have hrne : rvlen (rvsub pos target) ≠ 0 := ne_of_gt hr0
  set r := rvlen (rvsub pos target) with hrdef
  set a := zoomDelta * 5 with hadef
  have hane : a ≠ r := hne
  have hp1 : rvsub (rvadd pos (rvsmul (-a) (rvnormalize (rvsub pos target)))) target
      = rvsmul (1 - a / r) (rvsub pos target) := pinch_offset pos target a hrne
  have hscal : |1 - a / r| * r = |r - a| := by
    rw [show (1 - a / r) = (r - a) / r by field_simp, abs_div,
      abs_of_pos hr0, div_mul_cancel₀ _ (ne_of_gt hr0)]
  have hd1 : distTo (rvadd pos (rvsmul (-a) (rvnormalize (rvsub pos target)))) target
      = |r - a| := by
    rw [distTo, hp1, rvlen_smul, hscal]
  have hdne : |r - a| ≠ 0 := by
    rw [abs_ne_zero]
    exact sub_ne_zero.mpr (Ne.symm hane)
  have hstep : pinchStep target pos zoomDelta =
      (if distTo (rvadd pos (rvsmul (-a) (rvnormalize (rvsub pos target)))) target < 2
        then rvadd target (rvsmul 2 (rvnormalize
          (rvsub (rvadd pos (rvsmul (-a) (rvnormalize (rvsub pos target)))) target)))
        else if 20 < distTo (rvadd pos (rvsmul (-a) (rvnormalize (rvsub pos target)))) target
        then rvadd target (rvsmul 20 (rvnormalize
          (rvsub (rvadd pos (rvsmul (-a) (rvnormalize (rvsub pos target)))) target)))
        else rvadd pos (rvsmul (-a) (rvnormalize (rvsub pos target)))) := by
    simp only [pinchStep]
  have hxlen : rvlen (rvsub (rvadd pos (rvsmul (-a)
      (rvnormalize (rvsub pos target)))) target) ≠ 0 := by
    rw [hp1, rvlen_smul, hscal]
    exact hdne
  by_cases hlt : distTo (rvadd pos (rvsmul (-a) (rvnormalize (rvsub pos target)))) target < 2
  · rw [hstep, if_pos hlt, distTo, rvsub_rvadd_cancel, rvlen_smul,
      rvnormalize_len _ hxlen]
    norm_num
  · by_cases hgt : 20 < distTo (rvadd pos (rvsmul (-a)
        (rvnormalize (rvsub pos target)))) target
    · rw [hstep, if_neg hlt, if_pos hgt, distTo, rvsub_rvadd_cancel, rvlen_smul,
        rvnormalize_len _ hxlen]
      norm_num
    · rw [hstep, if_neg hlt, if_neg hgt]
      exact ⟨le_of_not_lt hlt, le_of_not_lt hgt⟩

theorem rvlen_z5 : rvlen (⟨0, 0, 5⟩ : RV3) = 5 := by
  simp only [rvlen]
  rw [show ((0:ℝ) ^ 2 + 0 ^ 2 + 5 ^ 2) = 5 ^ 2 by norm_num,
    Real.sqrt_sq (by norm_num : (0:ℝ) ≤ 5)]

theorem rvlen_zero : rvlen (⟨0, 0, 0⟩ : RV3) = 0 := by
  simp [rvlen]

theorem rvsub_z5 : rvsub (⟨0, 0, 5⟩ : RV3) ⟨0, 0, 0⟩ = ⟨0, 0, 5⟩ := by
  ext <;> simp [rvsub]

theorem distTo_z5 : distTo (⟨0, 0, 5⟩ : RV3) ⟨0, 0, 0⟩ = 5 := by
  rw [distTo, rvsub_z5, rvlen_z5]

theorem pinch_cex_step : pinchStep ⟨0, 0, 0⟩ ⟨0, 0, 5⟩ 1 = ⟨0, 0, 0⟩ := by
  have hnorm : rvnormalize (⟨0, 0, 5⟩ : RV3) = ⟨0, 0, 1⟩ := by
    simp only [rvnormalize]
    rw [if_neg (by rw [rvlen_z5]; norm_num), rvlen_z5]
    ext <;> simp [rvsmul]
  have hp1 : rvadd (⟨0, 0, 5⟩ : RV3) (rvsmul (-((1:ℝ) * 5)) ⟨0, 0, 1⟩)
      = ⟨0, 0, 0⟩ := by
    ext <;> simp [rvadd, rvsmul]
  have hz : rvnormalize (⟨0, 0, 0⟩ : RV3) = ⟨0, 0, 0⟩ := by
    simp only [rvnormalize]
    rw [if_pos rvlen_zero]
  have hd0 : distTo (⟨0, 0, 0⟩ : RV3) ⟨0, 0, 0⟩ = 0 := by
    rw [distTo, rvsub_self, rvlen_zero]
  simp only [pinchStep]
  rw [rvsub_z5, hnorm, hp1, hd0, if_pos (by norm_num : (0:ℝ) < 2),
    rvsub_self, hz]
  ext <;> simp [rvadd, rvsmul]

end Cam

/-- Claim C8, counterexample: the claim quantifies over every pinch-zoom
sequence and asserts the camera distance never leaves [minDistance,
maxDistance] = [2, 20]; but a single pinch delta of 1 (zoomAmount 5)
applied to a camera at distance 5 moves the camera exactly onto the target,
where the clamp re-normalizes the zero offset (three.js `normalize` leaves
the zero vector unchanged), so the distance after the update is 0, strictly
below the lower bound. -/
theorem claim_C8_counterexample :
    2 ≤ Cam.distTo ⟨0, 0, 5⟩ (⟨0, 0, 0⟩ : Cam.RV3) ∧
    Cam.distTo ⟨0, 0, 5⟩ (⟨0, 0, 0⟩ : Cam.RV3) ≤ 20 ∧
    Cam.distTo (([(1:ℝ)]).foldl (Cam.pinchStep ⟨0, 0, 0⟩) ⟨0, 0, 5⟩)
      (⟨0, 0, 0⟩ : Cam.RV3) < 2 := by
  refine ⟨by rw [Cam.distTo_z5]; norm_num, by rw [Cam.distTo_z5]; norm_num, ?_⟩
  show Cam.distTo (Cam.pinchStep ⟨0, 0, 0⟩ ⟨0, 0, 5⟩ 1) ⟨0, 0, 0⟩ < 2
  rw [Cam.pinch_cex_step, Cam.distTo, Cam.rvsub_self, Cam.rvlen_zero]
  norm_num

/-- Claim C8 as amended: for every sequence of pinch-zoom deltas applied
through the camera controller (`zoomCamera` / `handlePinchZoom`), starting
from a camera whose distance to the target lies in [2, 20], the distance
stays in [2, 20] after each update, provided no single update moves the
camera exactly onto the target (zoomAmount = delta * 5 different from the
current distance); if an update does land exactly on the target the clamp
cannot restore the distance (it stays 0). Quantifying over the whole delta
list covers every prefix, hence every intermediate update. -/
theorem claim_C8_zoom_clamped (target : Cam.RV3) :
    ∀ (ds : List ℝ) (p0 : Cam.RV3),
      2 ≤ Cam.distTo p0 target → Cam.distTo p0 target ≤ 20 →
      (∀ pre zoomDelta suf, ds = pre ++ zoomDelta :: suf →
        zoomDelta * 5 ≠ Cam.distTo (pre.foldl (Cam.pinchStep target) p0) target) →
      2 ≤ Cam.distTo (ds.foldl (Cam.pinchStep target) p0) target ∧
      Cam.distTo (ds.foldl (Cam.pinchStep target) p0) target ≤ 20 := by
  intro ds
  induction ds with
  | nil =>
    intro p0 h2 h20 _
    exact ⟨h2, h20⟩
  | cons zoomDelta ds ih =>
    intro p0 h2 h20 H
    have hfirst : zoomDelta * 5 ≠ Cam.distTo p0 target := by
      have := H [] zoomDelta ds rfl
      simpa using this
    have hpos : 0 < Cam.distTo p0 target := lt_of_lt_of_le (by norm_num) h2
    obtain ⟨k2, k20⟩ := Cam.pinchStep_dist target p0 zoomDelta hpos hfirst
    have H2 : ∀ pre zd suf, ds = pre ++ zd :: suf →
        zd * 5 ≠ Cam.distTo
          (pre.foldl (Cam.pinchStep target) (Cam.pinchStep target p0 zoomDelta))
          target := by
      intro pre zd suf h
      have := H (zoomDelta :: pre) zd suf (by rw [List.cons_append, h])
      simpa [List.foldl_cons] using this
    have := ih (Cam.pinchStep target p0 zoomDelta) k2 k20 H2
    rw [List.foldl_cons]
    exact this

/-- Witness for the amended C8: camera at (0,0,5) (distance 5 from the
origin target), one pinch delta 1/10 (zoomAmount 1/2, which does not equal
the current distance); the distance stays in [2, 20]. -/
theorem claim_C8_witness :
    ((2:ℝ) ≤ Cam.distTo ⟨0, 0, 5⟩ (⟨0, 0, 0⟩ : Cam.RV3) ∧
      Cam.distTo ⟨0, 0, 5⟩ (⟨0, 0, 0⟩ : Cam.RV3) ≤ 20) ∧
    2 ≤ Cam.distTo (([(1/10 : ℝ)]).foldl (Cam.pinchStep ⟨0, 0, 0⟩) ⟨0, 0, 5⟩)
        (⟨0, 0, 0⟩ : Cam.RV3) ∧
    Cam.distTo (([(1/10 : ℝ)]).foldl (Cam.pinchStep ⟨0, 0, 0⟩) ⟨0, 0, 5⟩)
        (⟨0, 0, 0⟩ : Cam.RV3) ≤ 20 := by
  have h2 : (2:ℝ) ≤ Cam.distTo ⟨0, 0, 5⟩ (⟨0, 0, 0⟩ : Cam.RV3) := by
    rw [Cam.distTo_z5]; norm_num
  have h20 : Cam.distTo ⟨0, 0, 5⟩ (⟨0, 0, 0⟩ : Cam.RV3) ≤ 20 := by
    rw [Cam.distTo_z5]; norm_num
  have hH : ∀ pre zd suf, ([(1/10 : ℝ)]) = pre ++ zd :: suf →
      zd * 5 ≠ Cam.distTo (pre.foldl (Cam.pinchStep ⟨0, 0, 0⟩) ⟨0, 0, 5⟩)
        (⟨0, 0, 0⟩ : Cam.RV3) := by
    intro pre zd suf h
    match pre with
    | [] =>
      simp only [List.nil_append, List.cons.injEq] at h
      obtain ⟨hzd, -⟩ := h
      subst hzd
      rw [List.foldl_nil, Cam.distTo_z5]
      norm_num
    | a :: pre2 =>
      simp only [List.cons_append, List.cons.injEq] at h
      exact absurd h.2 (by simp)
  exact ⟨⟨h2, h20⟩,
    claim_C8_zoom_clamped ⟨0, 0, 0⟩ [(1/10 : ℝ)] ⟨0, 0, 5⟩ h2 h20 hH⟩

namespace Hist

theorem findPair_eq_none {nm : String} {sz : Nat} {l : List HistoryItem}
    (h : ∀ it ∈ l, ¬(it.name = nm ∧ it.size = sz)) : findPair nm sz l = none := by
  rw [findPair, List.find?_eq_none]
  intro it hit
  simp only [Bool.and_eq_true, beq_iff_eq]
  exact h it hit

theorem findId_eq_none {i : String} {l : List HistoryItem}
    (h : ∀ it ∈ l, it.id ≠ i) : findId i l = none := by
  rw [findId, List.find?_eq_none]
  intro it hit
  simp only [beq_iff_eq]
  exact h it hit

theorem cleanup_noop {cap : Nat} {s : HSState} (h : s.dexie.length ≤ cap) :
    cleanupDexie cap s = s := by
  simp only [cleanupDexie]
  rw [if_neg (by omega)]

theorem addToHistory_dexie_fresh (cap : Nat) (env : CallEnv) (f : HFile) (s : HSState)
    (hprobe : env.probeDexie = true) (hfind : env.findOk = true)
    (hwrite : env.writeOk = true)
    (hpair : ∀ it ∈ s.dexie, ¬(it.name = f.name ∧ it.size = f.size))
    (hid : ∀ it ∈ s.dexie, it.id ≠ env.newId)
    (hlen : s.dexie.length < cap) :
    addToHistory cap env f s = .ok (env.newId,
      ⟨true, s.dexie ++
        [⟨env.newId, f.name, f.data, fmtOf f.name, f.size, env.now, env.thumb⟩],
        s.localStore⟩) := by
  have hsup : checkSupport env s = (true, { s with useDexie := true }) := by
    simp [checkSupport, hprobe]
  have hfex : findExistingItem env f.name f.size { s with useDexie := true } =
      (none, { s with useDexie := true }) := by
    simp [findExistingItem, hfind, findPair_eq_none hpair]
  simp only [addToHistory, hsup, hfex]
  have hcond : env.writeOk = true ∧ ∀ it2 ∈ s.dexie, it2.id ≠ env.newId :=
    ⟨hwrite, hid⟩
  rw [if_pos hcond]
  have hlen2 : (s.dexie ++
      [(⟨env.newId, f.name, f.data, fmtOf f.name, f.size, env.now, env.thumb⟩ :
        HistoryItem)]).length ≤ cap := by
    simp only [List.length_append, List.length_cons, List.length_nil]
    omega
  rw [cleanup_noop hlen2]
  simp

end Hist

/-- Claim C2, counterexample: the downgrade is not one-directional and
sticky. With the Dexie capability probe succeeding throughout, a first
`addToHistory` whose Dexie write fails falls back to localStorage and
clears `useDexie`; but the next `addToHistory` re-runs `isSupported()`,
which re-probes Dexie and resets `useDexie := true`, and the call then
performs a structured-backend write (the Dexie table gains the entry). -/
theorem claim_C2_counterexample :
    (Hist.addToHistory 20 ⟨true, true, true, false, 100, "id1", "t1"⟩
        ⟨"a.obj", 100, [1, 2, 3]⟩ Hist.initState).toOption
      = some ("id1", ⟨false, [],
          some [⟨"id1", "a.obj", [], "obj", 100, 100, ""⟩]⟩) ∧
    (Hist.addToHistory 20 ⟨true, true, true, true, 200, "id2", "t2"⟩
        ⟨"b.obj", 200, [4]⟩
        ⟨false, [], some [⟨"id1", "a.obj", [], "obj", 100, 100, ""⟩]⟩).toOption
      = some ("id2", ⟨true, [⟨"id2", "b.obj", [4], "obj", 200, 200, "t2"⟩],
          some [⟨"id1", "a.obj", [], "obj", 100, 100, ""⟩]⟩) := by
  decide

/-- Claim C2 as amended: the downgrade triggered by a structured-backend
failure lasts only for the remainder of that call. Every public call first
re-runs the capability probe (`isSupported()`), which resets
`useDexie := true` whenever the Dexie probe succeeds; so a subsequent call
with a successful probe retries — and uses — the structured backend, even
from a downgraded state (`useDexie = false`). The downgrade persists only
while the Dexie capability probe itself fails. -/
theorem claim_C2_downgrade_not_sticky (cap : Nat) (env : Hist.CallEnv)
    (f : Hist.HFile) (s : Hist.HSState) (_hdown : s.useDexie = false)
    (hprobe : env.probeDexie = true) (hfind : env.findOk = true)
    (hwrite : env.writeOk = true)
    (hpair : ∀ it ∈ s.dexie, ¬(it.name = f.name ∧ it.size = f.size))
    (hid : ∀ it ∈ s.dexie, it.id ≠ env.newId)
    (hlen : s.dexie.length < cap) :
    Hist.addToHistory cap env f s = .ok (env.newId,
      ⟨true, s.dexie ++
        [⟨env.newId, f.name, f.data, Hist.fmtOf f.name, f.size, env.now, env.thumb⟩],
        s.localStore⟩) :=
  Hist.addToHistory_dexie_fresh cap env f s hprobe hfind hwrite hpair hid hlen

/-- Witness for the amended C2: starting from the downgraded state left by
the counterexample's first call, an all-successful call inserts into the
Dexie table and leaves `useDexie = true`. -/
theorem claim_C2_witness :
    ((⟨false, [], some [⟨"id1", "a.obj", [], "obj", 100, 100, ""⟩]⟩ :
        Hist.HSState).useDexie = false) ∧
    Hist.addToHistory 20 ⟨true, true, true, true, 200, "id2", "t2"⟩
        ⟨"b.obj", 200, [4]⟩
        ⟨false, [], some [⟨"id1", "a.obj", [], "obj", 100, 100, ""⟩]⟩
      = .ok ("id2", ⟨true, [⟨"id2", "b.obj", [4], "obj", 200, 200, "t2"⟩],
          some [⟨"id1", "a.obj", [], "obj", 100, 100, ""⟩]⟩) := by
  refine ⟨rfl, ?_⟩
  exact claim_C2_downgrade_not_sticky 20 ⟨true, true, true, true, 200, "id2", "t2"⟩
    ⟨"b.obj", 200, [4]⟩
    ⟨false, [], some [⟨"id1", "a.obj", [], "obj", 100, 100, ""⟩]⟩
    rfl rfl rfl rfl (by decide) (by decide) (by decide)

namespace Hist

theorem find?_pair_eq_none {nm : String} {sz : Nat} {l : List HistoryItem}
    (h : ∀ it ∈ l, ¬(it.name = nm ∧ it.size = sz)) :
    l.find? (fun it => it.name == nm && it.size == sz) = none := by
  rw [List.find?_eq_none]
  intro it hit
  simp only [Bool.and_eq_true, beq_iff_eq]
  exact h it hit

theorem findPair_append_self (nm : String) (sz : Nat) (l : List HistoryItem)
    (it : HistoryItem) (h : ∀ x ∈ l, ¬(x.name = nm ∧ x.size = sz))
    (hn : it.name = nm) (hs : it.size = sz) :
    findPair nm sz (l ++ [it]) = some it := by
  rw [findPair, List.find?_append, find?_pair_eq_none h]
  simp [List.find?_cons, hn, hs]

theorem findId_append_self (i : String) (l : List HistoryItem)
    (it : HistoryItem) (h : ∀ x ∈ l, x.id ≠ i) (hit : it.id = i) :
    findId i (l ++ [it]) = some it := by
  have hnone : l.find? (fun x => x.id == i) = none := by
    rw [List.find?_eq_none]
    intro x hx
    simp only [beq_iff_eq]
    exact h x hx
  rw [findId, List.find?_append, hnone]
  simp [List.find?_cons, hit]

theorem map_put_append (l : List HistoryItem) (it : HistoryItem) (i : String)
    (now : Nat) (hfresh : ∀ x ∈ l, x.id ≠ i) (hit : it.id = i) :
    (l ++ [it]).map
        (fun x => if x.id == i then { x with timestamp := now } else x)
      = l ++ [{ it with timestamp := now }] := by
  rw [List.map_append]
  congr 1
  · have hgen : ∀ x ∈ l,
        (if x.id == i then { x with timestamp := now } else x) = id x := by
      intro x hx
      rw [if_neg (by simp [hfresh x hx])]
      rfl
    rw [List.map_congr_left hgen, List.map_id]
  · simp [List.map_cons, hit]

end Hist

/-- Claim C4: calling `addToHistory` twice with the same (name, size) pair
on the structured backend yields exactly one entry for that pair: the first
call appends the item (with the first call's thumbnail), the second call
only refreshes that entry's timestamp to the second call's `Date.now()`
(moving it to most-recently-used under the timestamp ordering of `list()`),
creates no duplicate, and keeps the first thumbnail (the thumbnail supplied
to the second call, `env2.thumb`, is universally quantified and absent from
the result). -/
theorem claim_C4_dedup_move_to_front (cap : Nat) (env1 env2 : Hist.CallEnv)
    (f : Hist.HFile) (s : Hist.HSState)
    (h1p : env1.probeDexie = true) (h1f : env1.findOk = true)
    (h1w : env1.writeOk = true)
    (h2p : env2.probeDexie = true) (h2f : env2.findOk = true)
    (h2w : env2.writeOk = true)
    (hpair : ∀ it ∈ s.dexie, ¬(it.name = f.name ∧ it.size = f.size))
    (hid : ∀ it ∈ s.dexie, it.id ≠ env1.newId)
    (hlen : s.dexie.length < cap) :
    Hist.addToHistory cap env1 f s = .ok (env1.newId,
      ⟨true, s.dexie ++
        [⟨env1.newId, f.name, f.data, Hist.fmtOf f.name, f.size, env1.now, env1.thumb⟩],
        s.localStore⟩) ∧
    Hist.addToHistory cap env2 f
      ⟨true, s.dexie ++
        [⟨env1.newId, f.name, f.data, Hist.fmtOf f.name, f.size, env1.now, env1.thumb⟩],
        s.localStore⟩
      = .ok (env1.newId,
        ⟨true, s.dexie ++
          [⟨env1.newId, f.name, f.data, Hist.fmtOf f.name, f.size, env2.now, env1.thumb⟩],
          s.localStore⟩) ∧
    ((s.dexie ++
        [(⟨env1.newId, f.name, f.data, Hist.fmtOf f.name, f.size, env2.now, env1.thumb⟩ :
          Hist.HistoryItem)]).filter
      (fun it => it.name == f.name && it.size == f.size)).length = 1 := by
  refine ⟨Hist.addToHistory_dexie_fresh cap env1 f s h1p h1f h1w hpair hid hlen, ?_, ?_⟩
  · have hsup : Hist.checkSupport env2
        ⟨true, s.dexie ++
          [⟨env1.newId, f.name, f.data, Hist.fmtOf f.name, f.size, env1.now, env1.thumb⟩],
          s.localStore⟩
        = (true, ⟨true, s.dexie ++
          [⟨env1.newId, f.name, f.data, Hist.fmtOf f.name, f.size, env1.now, env1.thumb⟩],
          s.localStore⟩) := by
      simp [Hist.checkSupport, h2p]
    have hfex : Hist.findExistingItem env2 f.name f.size
        ⟨true, s.dexie ++
          [⟨env1.newId, f.name, f.data, Hist.fmtOf f.name, f.size, env1.now, env1.thumb⟩],
          s.localStore⟩
        = (some ⟨env1.newId, f.name, f.data, Hist.fmtOf f.name, f.size, env1.now, env1.thumb⟩,
          ⟨true, s.dexie ++
            [⟨env1.newId, f.name, f.data, Hist.fmtOf f.name, f.size, env1.now, env1.thumb⟩],
            s.localStore⟩) := by
      have hfp := Hist.findPair_append_self f.name f.size s.dexie
        (⟨env1.newId, f.name, f.data, Hist.fmtOf f.name, f.size, env1.now, env1.thumb⟩ :
          Hist.HistoryItem) hpair rfl rfl
      simp [Hist.findExistingItem, h2f, hfp]
    have hfid : Hist.findId env1.newId (s.dexie ++
        [(⟨env1.newId, f.name, f.data, Hist.fmtOf f.name, f.size, env1.now, env1.thumb⟩ :
          Hist.HistoryItem)])
        = some ⟨env1.newId, f.name, f.data, Hist.fmtOf f.name, f.size, env1.now, env1.thumb⟩ :=
      Hist.findId_append_self env1.newId s.dexie _ hid rfl
    have hmap : List.map
          (fun x => if x.id == env1.newId then { x with timestamp := env2.now } else x)
          (s.dexie ++
            [(⟨env1.newId, f.name, f.data, Hist.fmtOf f.name, f.size, env1.now, env1.thumb⟩ :
              Hist.HistoryItem)])
        = s.dexie ++
          [(⟨env1.newId, f.name, f.data, Hist.fmtOf f.name, f.size, env2.now, env1.thumb⟩ :
            Hist.HistoryItem)] := by
      rw [Hist.map_put_append s.dexie _ env1.newId env2.now hid rfl]
    simp only [Hist.addToHistory, hsup, hfex, Hist.moveToTop, h2w, hfid, hmap]
    simp
  · rw [List.filter_append]
    have h1 : s.dexie.filter (fun it => it.name == f.name && it.size == f.size) = [] := by
      rw [List.filter_eq_nil_iff]
      intro a ha
      simp only [Bool.and_eq_true, beq_iff_eq]
      exact hpair a ha
    rw [h1]
    simp

/-- Witness for C4: two adds of ("a.obj", 100) on an empty store with
capacity 20 leave one entry whose timestamp is the second call's time and
whose thumbnail is the first call's. -/
theorem claim_C4_witness :
    Hist.addToHistory 20 ⟨true, true, true, true, 100, "id1", "t1"⟩
        ⟨"a.obj", 100, [1, 2, 3]⟩ Hist.initState
      = .ok ("id1", ⟨true, [⟨"id1", "a.obj", [1, 2, 3], "obj", 100, 100, "t1"⟩], none⟩) ∧
    Hist.addToHistory 20 ⟨true, true, true, true, 200, "id2", "t2"⟩
        ⟨"a.obj", 100, [1, 2, 3]⟩
        ⟨true, [⟨"id1", "a.obj", [1, 2, 3], "obj", 100, 100, "t1"⟩], none⟩
      = .ok ("id1", ⟨true, [⟨"id1", "a.obj", [1, 2, 3], "obj", 100, 200, "t1"⟩], none⟩) ∧
    (([⟨"id1", "a.obj", [1, 2, 3], "obj", 100, 200, "t1"⟩] : List Hist.HistoryItem).filter
      (fun it => it.name == "a.obj" && it.size == 100)).length = 1 := by
  have h := claim_C4_dedup_move_to_front 20
    ⟨true, true, true, true, 100, "id1", "t1"⟩
    ⟨true, true, true, true, 200, "id2", "t2"⟩
    ⟨"a.obj", 100, [1, 2, 3]⟩ Hist.initState
    rfl rfl rfl rfl rfl rfl (by decide) (by decide) (by decide)
  exact h

/-- Claim C6: an entry added via `addToHistory` and then retrieved via
`getHistoryItem(id)` returns data byte-identical to the bytes supplied at
add time when the structured (Dexie) backend is active; when the key-value
(localStorage) fallback backend is active (Dexie probe failing), the stored
entry's data is empty and the thumbnail is dropped, so the round trip is
lossy. -/
theorem claim_C6_roundtrip :
    (∀ (cap : Nat) (env1 env2 : Hist.CallEnv) (f : Hist.HFile) (s : Hist.HSState),
      env1.probeDexie = true → env1.findOk = true → env1.writeOk = true →
      env2.probeDexie = true → env2.findOk = true →
      (∀ it ∈ s.dexie, ¬(it.name = f.name ∧ it.size = f.size)) →
      (∀ it ∈ s.dexie, it.id ≠ env1.newId) →
      s.dexie.length < cap →
      ∃ s1, Hist.addToHistory cap env1 f s = .ok (env1.newId, s1) ∧
        (Hist.getHistoryItem env2 env1.newId s1).1
          = some ⟨env1.newId, f.name, f.data, Hist.fmtOf f.name, f.size,
              env1.now, env1.thumb⟩) ∧
    (∀ (cap : Nat) (env1 env2 : Hist.CallEnv) (f : Hist.HFile) (s : Hist.HSState),
      env1.probeDexie = false → env1.hasLocalStorage = true →
      env2.probeDexie = false → env2.hasLocalStorage = true →
      (∀ it ∈ Hist.lsHistory s, ¬(it.name = f.name ∧ it.size = f.size)) →
      1 ≤ cap →
      ∃ s1, Hist.addToHistory cap env1 f s = .ok (env1.newId, s1) ∧
        (Hist.getHistoryItem env2 env1.newId s1).1
          = some ⟨env1.newId, f.name, [], Hist.fmtOf f.name, f.size,
              env1.now, ""⟩) := by
  constructor
  · intro cap env1 env2 f s h1p h1f h1w h2p h2f hpair hid hlen
    refine ⟨⟨true, s.dexie ++
      [⟨env1.newId, f.name, f.data, Hist.fmtOf f.name, f.size, env1.now, env1.thumb⟩],
      s.localStore⟩,
      Hist.addToHistory_dexie_fresh cap env1 f s h1p h1f h1w hpair hid hlen, ?_⟩
    have hfid : Hist.findId env1.newId (s.dexie ++
        [(⟨env1.newId, f.name, f.data, Hist.fmtOf f.name, f.size, env1.now, env1.thumb⟩ :
          Hist.HistoryItem)])
        = some ⟨env1.newId, f.name, f.data, Hist.fmtOf f.name, f.size, env1.now, env1.thumb⟩ :=
      Hist.findId_append_self env1.newId s.dexie _ hid rfl
    simp [Hist.getHistoryItem, Hist.checkSupport, h2p, h2f, hfid]
  · intro cap env1 env2 f s h1p h1ls h2p h2ls hpair hcap
    obtain ⟨k, rfl⟩ : ∃ k, cap = k + 1 := ⟨cap - 1, by omega⟩
    have hsup1 : Hist.checkSupport env1 s = (true, { s with useDexie := false }) := by
      simp [Hist.checkSupport, h1p, h1ls]
    have hfex1 : Hist.findExistingItem env1 f.name f.size { s with useDexie := false }
        = (none, { s with useDexie := false }) := by
      have hnone : Hist.findPair f.name f.size
          (Hist.lsHistory ({ s with useDexie := false } : Hist.HSState)) = none :=
        Hist.findPair_eq_none hpair
      simp [Hist.findExistingItem, hnone]
    have hadd : Hist.addToHistory (k + 1) env1 f s = .ok (env1.newId,
        ⟨false, s.dexie,
          some ((⟨env1.newId, f.name, [], Hist.fmtOf f.name, f.size, env1.now, ""⟩ ::
            Hist.lsHistory s).take (k + 1))⟩) := by
      simp only [Hist.addToHistory, hsup1, hfex1, Hist.saveToLS]
      simp [Hist.lsHistory]
    refine ⟨_, hadd, ?_⟩
    have hsup2 : Hist.checkSupport env2
        (⟨false, s.dexie,
          some ((⟨env1.newId, f.name, [], Hist.fmtOf f.name, f.size, env1.now, ""⟩ ::
            Hist.lsHistory s).take (k + 1))⟩ : Hist.HSState)
        = (true, ⟨false, s.dexie,
          some ((⟨env1.newId, f.name, [], Hist.fmtOf f.name, f.size, env1.now, ""⟩ ::
            Hist.lsHistory s).take (k + 1))⟩) := by
      simp [Hist.checkSupport, h2p, h2ls]
    simp only [Hist.getHistoryItem, hsup2]
    simp [Hist.lsHistory, Hist.findId, List.take_succ_cons, List.find?_cons]

/-- Witness for C6: a concrete add/get pair on an empty store under each
backend; the structured backend returns the original bytes [9, 8, 7], the
fallback returns empty data and an empty thumbnail. -/
theorem claim_C6_witness :
    (∃ s1, Hist.addToHistory 20 ⟨true, true, true, true, 100, "id1", "t1"⟩
        ⟨"a.obj", 100, [9, 8, 7]⟩ Hist.initState = .ok ("id1", s1) ∧
      (Hist.getHistoryItem ⟨true, true, true, true, 0, "", ""⟩ "id1" s1).1
        = some ⟨"id1", "a.obj", [9, 8, 7], "obj", 100, 100, "t1"⟩) ∧
    (∃ s1, Hist.addToHistory 20 ⟨false, true, true, true, 100, "id1", "t1"⟩
        ⟨"a.obj", 100, [9, 8, 7]⟩ Hist.initState = .ok ("id1", s1) ∧
      (Hist.getHistoryItem ⟨false, true, true, true, 0, "", ""⟩ "id1" s1).1
        = some ⟨"id1", "a.obj", [], "obj", 100, 100, ""⟩) := by
  constructor
  · have h := claim_C6_roundtrip.1 20 ⟨true, true, true, true, 100, "id1", "t1"⟩
      ⟨true, true, true, true, 0, "", ""⟩ ⟨"a.obj", 100, [9, 8, 7]⟩ Hist.initState
      rfl rfl rfl rfl rfl (by decide) (by decide) (by decide)
    have hfmt : Hist.fmtOf "a.obj" = "obj" := by decide
    rw [hfmt] at h
    exact h
  · have h := claim_C6_roundtrip.2 20 ⟨false, true, true, true, 100, "id1", "t1"⟩
      ⟨false, true, true, true, 0, "", ""⟩ ⟨"a.obj", 100, [9, 8, 7]⟩ Hist.initState
      rfl rfl rfl rfl (by decide) (by decide)
    have hfmt : Hist.fmtOf "a.obj" = "obj" := by decide
    rw [hfmt] at h
    exact h

namespace Hist

theorem mem_range_one {i s n : Nat} : i ∈ List.range' s n ↔ s ≤ i ∧ i < s + n := by
  induction n generalizing s with
  | zero => simp [List.range']
  | succ n ih =>
    rw [List.range'_succ]
    simp only [List.mem_cons, ih]
    omega

theorem pairwise_lt_range_one (s n : Nat) : (List.range' s n).Pairwise (· < ·) := by
  induction n generalizing s with
  | zero => exact List.Pairwise.nil
  | succ n ih =>
    rw [List.range'_succ]
    refine List.Pairwise.cons ?_ (ih (s + 1))
    intro b hb
    have := mem_range_one.mp hb
    omega

theorem sorted_snoc_map (g : Nat → HistoryItem) (s n k N : Nat)
    (hsn : s + n ≤ k) (hk : k < N)
    (hts : ∀ i j, i < j → j < N → (g i).timestamp < (g j).timestamp) :
    List.Sorted (fun a b => a.timestamp ≤ b.timestamp)
      ((List.range' s n).map g ++ [g k]) := by
  have hidx : (List.range' s n ++ [k]).Pairwise (· < ·) := by
    rw [List.pairwise_append]
    refine ⟨pairwise_lt_range_one s n, by simp, ?_⟩
    intro a ha b hb
    simp only [List.mem_singleton] at hb
    subst hb
    have := mem_range_one.mp ha
    omega
  have hidx2 : (List.range' s n ++ [k]).Pairwise
      (fun i j => (g i).timestamp ≤ (g j).timestamp) := by
    refine hidx.imp_of_mem ?_
    intro a b ha hb hab
    have hbN : b < N := by
      rcases List.mem_append.mp hb with h | h
      · have := mem_range_one.mp h
        omega
      · simp only [List.mem_singleton] at h
        omega
    exact le_of_lt (hts a b hab hbN)
  have hmap : ((List.range' s n ++ [k]).map g).Pairwise
      (fun a b => a.timestamp ≤ b.timestamp) :=
    List.pairwise_map.mpr hidx2
  simpa [List.map_append] using hmap

end Hist

namespace Hist

theorem addStep_scenario (cap N : Nat) (nm : Nat → String) (sz : Nat → Nat)
    (dat : Nat → List Nat) (idf th : Nat → String) (ts : Nat → Nat)
    (hcap : 1 ≤ cap)
    (hpair : ∀ i, i < N → ∀ j, j < N → i ≠ j → ¬(nm i = nm j ∧ sz i = sz j))
    (hid : ∀ i, i < N → ∀ j, j < N → i ≠ j → idf i ≠ idf j)
    (hts : ∀ i j, i < j → j < N → ts i < ts j)
    (k : Nat) (hk : k < N) :
    addToHistory cap ⟨true, true, true, true, ts k, idf k, th k⟩
      ⟨nm k, sz k, dat k⟩
      ⟨true, (List.range' (k - cap) (min k cap)).map
        (fun i => ⟨idf i, nm i, dat i, fmtOf (nm i), sz i, ts i, th i⟩), none⟩
    = .ok (idf k,
      ⟨true, (List.range' (k + 1 - cap) (min (k + 1) cap)).map
        (fun i => ⟨idf i, nm i, dat i, fmtOf (nm i), sz i, ts i, th i⟩), none⟩) := by
  set g : Nat → HistoryItem :=
    fun i => ⟨idf i, nm i, dat i, fmtOf (nm i), sz i, ts i, th i⟩ with hg
  have hmemlt : ∀ i ∈ List.range' (k - cap) (min k cap), i < k ∧ i < N := by
    intro i hi
    have := mem_range_one.mp hi
    constructor <;> omega
  have hpairlist : ∀ it ∈ (List.range' (k - cap) (min k cap)).map g,
      ¬(it.name = nm k ∧ it.size = sz k) := by
    intro it hit
    obtain ⟨i, hi, rfl⟩ := List.mem_map.mp hit
    have hb := hmemlt i hi
    exact hpair i (by omega) k hk (by omega)
  have hidlist : ∀ it ∈ (List.range' (k - cap) (min k cap)).map g,
      it.id ≠ idf k := by
    intro it hit
    obtain ⟨i, hi, rfl⟩ := List.mem_map.mp hit
    have hb := hmemlt i hi
    exact hid i (by omega) k hk (by omega)
  have hsup : checkSupport ⟨true, true, true, true, ts k, idf k, th k⟩
      (⟨true, (List.range' (k - cap) (min k cap)).map g, none⟩ : HSState)
      = (true, ⟨true, (List.range' (k - cap) (min k cap)).map g, none⟩) := rfl
  have hfind : findPair (nm k) (sz k) ((List.range' (k - cap) (min k cap)).map g)
      = none := findPair_eq_none hpairlist
  have hfex : findExistingItem ⟨true, true, true, true, ts k, idf k, th k⟩
      (nm k) (sz k) (⟨true, (List.range' (k - cap) (min k cap)).map g, none⟩ : HSState)
      = (none, ⟨true, (List.range' (k - cap) (min k cap)).map g, none⟩) := by
    simp [findExistingItem, hfind]
  simp only [addToHistory, hsup, hfex]
  simp only [if_true]
  have hcond : True ∧
      ∀ it2 ∈ (List.range' (k - cap) (min k cap)).map g, it2.id ≠ idf k :=
    ⟨trivial, hidlist⟩
  rw [if_pos hcond]
  refine congrArg (fun t => Except.ok ((idf k : String), t)) ?_
  by_cases hkc : k < cap
  · have h1 : min k cap = k := by omega
    have h2 : k - cap = 0 := by omega
    have h3 : min (k + 1) cap = k + 1 := by omega
    have h4 : k + 1 - cap = 0 := by omega
    rw [cleanup_noop (by simp [h1]; omega)]
    rw [h1, h2, h3, h4, List.range'_1_concat, List.map_append]
    simp
  · push_neg at hkc
    obtain ⟨s0, rfl⟩ : ∃ s0, k = s0 + cap := ⟨k - cap, by omega⟩
    have h1 : s0 + cap - cap = s0 := by omega
    have h2 : min (s0 + cap) cap = cap := by omega
    have h3 : s0 + cap + 1 - cap = s0 + 1 := by omega
    have h4 : min (s0 + cap + 1) cap = cap := by omega
    rw [h1, h2, h3, h4]
    obtain ⟨c, rfl⟩ : ∃ c, cap = c + 1 := ⟨cap - 1, by omega⟩
    simp only [cleanupDexie]
    rw [if_pos (by simp)]
    have hsort : sortByTs ((List.range' s0 (c + 1)).map g ++ [g (s0 + (c + 1))])
        = (List.range' s0 (c + 1)).map g ++ [g (s0 + (c + 1))] := by
      refine List.Sorted.insertionSort_eq ?_
      exact sorted_snoc_map g s0 (c + 1) (s0 + (c + 1)) N (by omega) (by omega)
        (fun i j hij hjN => hts i j hij hjN)
    rw [hsort]
    have hlen2 : ((List.range' s0 (c + 1)).map g ++ [g (s0 + (c + 1))]).length
        - (c + 1) = 1 := by simp
    rw [hlen2]
    rw [List.range'_succ]
    simp only [List.map_cons, List.cons_append, List.take_succ_cons, List.take_zero,
      List.map_nil]
    have hall : ∀ a ∈ (List.map g (List.range' (s0 + 1) c) ++ [g (s0 + (c + 1))]),
        (!([idf s0].contains a.id)) = true := by
      intro a ha
      have haid : a.id ≠ idf s0 := by
        rcases List.mem_append.mp ha with h | h
        · obtain ⟨i, hi, rfl⟩ := List.mem_map.mp h
          have := mem_range_one.mp hi
          exact hid i (by omega) s0 (by omega) (by omega)
        · simp only [List.mem_singleton] at h
          subst h
          exact hid (s0 + (c + 1)) (by omega) s0 (by omega) (by omega)
      simpa using haid
    have hfinal : List.filter (fun it => !([idf s0].contains it.id))
        (g s0 :: (List.map g (List.range' (s0 + 1) c) ++ [g (s0 + (c + 1))]))
        = List.map g (List.range' (s0 + 1) (c + 1)) := by
      rw [List.filter_cons_of_neg (by simp), List.filter_eq_self.mpr hall,
        List.range'_1_concat]
      rw [(by omega : s0 + 1 + c = s0 + (c + 1))]
      rw [List.map_append]
      simp
    exact congrArg
      (fun d => ({ useDexie := true, dexie := d, localStore := none } : HSState)) hfinal

end Hist

namespace Hist

theorem runAdds_scenario (cap N : Nat) (nm : Nat → String) (sz : Nat → Nat)
    (dat : Nat → List Nat) (idf th : Nat → String) (ts : Nat → Nat)
    (hcap : 1 ≤ cap)
    (hpair : ∀ i, i < N → ∀ j, j < N → i ≠ j → ¬(nm i = nm j ∧ sz i = sz j))
    (hid : ∀ i, i < N → ∀ j, j < N → i ≠ j → idf i ≠ idf j)
    (hts : ∀ i j, i < j → j < N → ts i < ts j) :
    ∀ k, k ≤ N →
      runAdds cap (fun i => ⟨true, true, true, true, ts i, idf i, th i⟩)
        (fun i => ⟨nm i, sz i, dat i⟩) k
      = ⟨true, (List.range' (k - cap) (min k cap)).map
          (fun i => ⟨idf i, nm i, dat i, fmtOf (nm i), sz i, ts i, th i⟩), none⟩ := by
  intro k
  induction k with
  | zero =>
    intro _
    simp [runAdds, initState, List.range']
  | succ k ih =>
    intro hk1
    simp only [runAdds]
    rw [ih (by omega)]
    rw [addStep_scenario cap N nm sz dat idf th ts hcap hpair hid hts k (by omega)]

end Hist

/-- Claim C5: in the Dexie path, after every add the eviction step deletes
the oldest entries by ascending timestamp until the count is back within
the configured capacity; therefore N sequential adds of pairwise-distinct
entries (distinct (name, size) pairs, distinct generated ids, strictly
increasing timestamps) with N > capacity leave exactly `capacity` entries,
and every surviving entry is more recent than every evicted one (the
evicted entries are exactly the first N - capacity). -/
theorem claim_C5_capacity_eviction (cap N : Nat) (nm : Nat → String)
    (sz : Nat → Nat) (dat : Nat → List Nat) (idf th : Nat → String)
    (ts : Nat → Nat)
    (hcap : 1 ≤ cap) (hN : cap < N)
    (hpair : ∀ i, i < N → ∀ j, j < N → i ≠ j → ¬(nm i = nm j ∧ sz i = sz j))
    (hid : ∀ i, i < N → ∀ j, j < N → i ≠ j → idf i ≠ idf j)
    (hts : ∀ i j, i < j → j < N → ts i < ts j) :
    (Hist.runAdds cap (fun i => ⟨true, true, true, true, ts i, idf i, th i⟩)
        (fun i => ⟨nm i, sz i, dat i⟩) N).dexie.length = cap ∧
    ∀ it ∈ (Hist.runAdds cap (fun i => ⟨true, true, true, true, ts i, idf i, th i⟩)
        (fun i => ⟨nm i, sz i, dat i⟩) N).dexie,
      ∀ j, j < N - cap → ts j < it.timestamp := by
  rw [Hist.runAdds_scenario cap N nm sz dat idf th ts hcap hpair hid hts N
    (le_refl N)]
  have hmin : min N cap = cap := min_eq_right (le_of_lt hN)
  constructor
  · simp [hmin]
  · intro it hit j hj
    obtain ⟨i, hi, rfl⟩ := List.mem_map.mp hit
    have hb := Hist.mem_range_one.mp hi
    rw [hmin] at hb
    exact hts j i (by omega) (by omega)

/-- Witness for C5: capacity 2, three distinct adds (names "0", "1", "2",
sizes 0, 1, 2, timestamps 0, 1, 2); two entries survive and both are more
recent than the single evicted one. -/
theorem claim_C5_witness :
    ((1 : Nat) ≤ 2 ∧ (2 : Nat) < 3 ∧
      (∀ i, i < 3 → ∀ j, j < 3 → i ≠ j → ¬(toString i = toString j ∧ i = j)) ∧
      (∀ i, i < 3 → ∀ j, j < 3 → i ≠ j → toString i ≠ toString j) ∧
      (∀ i j : Nat, i < j → j < 3 → i < j)) ∧
    (Hist.runAdds 2 (fun i => ⟨true, true, true, true, i, toString i, "t"⟩)
        (fun i => ⟨toString i, i, []⟩) 3).dexie.length = 2 ∧
    ∀ it ∈ (Hist.runAdds 2 (fun i => ⟨true, true, true, true, i, toString i, "t"⟩)
        (fun i => ⟨toString i, i, []⟩) 3).dexie,
      ∀ j, j < 3 - 2 → j < it.timestamp := by
  refine ⟨⟨by norm_num, by norm_num, by decide, by decide,
    fun i j hij _ => hij⟩, ?_⟩
  exact claim_C5_capacity_eviction 2 3 (fun i => toString i) (fun i => i)
    (fun _ => []) (fun i => toString i) (fun _ => "t") (fun i => i)
    (by norm_num) (by norm_num) (by decide) (by decide) (fun i j hij _ => hij)
